import Mathlib

/-!
Verification of the rapid-judge Judge Evaluation & Experiment Integrity
Engine against its specification.

The TypeScript source is shallowly embedded: JavaScript `number`
arithmetic is modelled with exact rationals (`ℚ`), `Math.round` with the
round-half-toward-positive-infinity integer rounding, 32-bit bitwise
operations (used by the FNV-style string hash) with explicit `% 2^32`
arithmetic on `ℤ`/`ℕ`, and dynamically typed judge JSON with an
inductive `Json` type (`undefined` is `Option.none`).  Provider calls
are outside the engine; functions that consume a judge response are
parameterized by the parsed response value.
-/

namespace RapidJudge

/-! ## JavaScript numeric primitives -/

/-- JS `Math.max(lo, Math.min(hi, n))`, the clamping pattern used
throughout `judge-output.ts` (`clamp`) and the aggregation functions. -/
def clamp (n lo hi : ℚ) : ℚ := max lo (min hi n)

/-- JS `Math.round`: rounds half toward positive infinity. -/
def jsRound (q : ℚ) : ℤ := ⌊q + 1/2⌋

/-- JS `Math.round(x * 10) / 10`: round to one decimal place. -/
def roundTo1 (q : ℚ) : ℚ := (jsRound (q * 10) : ℚ) / 10

/-- JS `Math.round(x * 10_000) / 10_000`: round to four decimal places
(used on criterion weights by `rubricFingerprint`). -/
def round4 (q : ℚ) : ℚ := (jsRound (q * 10000) : ℚ) / 10000

/-- JS `ToUint32`: the value's bit pattern as a natural number below `2^32`. -/
def toUint32 (z : ℤ) : ℕ := (z % (2 : ℤ) ^ 32).toNat

/-- JS `ToInt32`: reduce into `[-2^31, 2^31)`. -/
def toInt32 (z : ℤ) : ℤ := (z + 2 ^ 31) % 2 ^ 32 - 2 ^ 31

/-- JS `a ^ b` on 32-bit integers: xor of the bit patterns, reinterpreted
as a signed 32-bit integer. -/
def xor32 (a b : ℤ) : ℤ := toInt32 ((toUint32 a ^^^ toUint32 b : ℕ) : ℤ)

/-- JS `a << k`: shift the 32-bit pattern left, reinterpret signed. -/
def shl32 (a : ℤ) (k : ℕ) : ℤ := toInt32 ((toUint32 a : ℤ) * 2 ^ k)

/-! ## The FNV-1a-style string hash (`hashString` in `rubric-versioning`
and `server-memory`; both copies are identical) -/

/-- One iteration of the hash loop:
`hash ^= code; hash += (hash<<1)+(hash<<4)+(hash<<7)+(hash<<8)+(hash<<24)`.
The additions are exact in a float64 because all summands are 32-bit. -/
def hashStep (hash : ℤ) (code : ℕ) : ℤ :=
  let h := xor32 hash code
  h + (shl32 h 1 + shl32 h 4 + shl32 h 7 + shl32 h 8 + shl32 h 24)

/-- UTF-16 code units of a character, as read by JS `charCodeAt`. -/
def utf16Units (c : Char) : List ℕ :=
  if c.toNat < 65536 then [c.toNat]
  else [55296 + (c.toNat - 65536) / 1024, 56320 + (c.toNat - 65536) % 1024]

/-- The UTF-16 code-unit sequence of a string. -/
def stringUtf16 (s : String) : List ℕ := (s.data.map utf16Units).flatten

/-- Lowercase hex digit. -/
def hexDigitChar (n : ℕ) : Char :=
  if n < 10 then Char.ofNat (48 + n) else Char.ofNat (87 + n)

/-- `(n).toString(16).padStart(8, "0")` for `n < 2^32`. -/
def natHex8 (n : ℕ) : String :=
  String.mk ((List.range 8).map (fun i => hexDigitChar (n / 16 ^ (7 - i) % 16)))

/-- The hash loop over the code units: `List.foldl hashStep`, written
with the accumulator matched into constructor (literal) form at every
step so that evaluating concrete hashes keeps the reduction shallow;
both branches are the same fold step. -/
def hashFold : ℤ → List ℕ → ℤ
  | h, [] => h
  | Int.ofNat h, c :: cs => hashFold (hashStep (Int.ofNat h) c) cs
  | Int.negSucc h, c :: cs => hashFold (hashStep (Int.negSucc h) c) cs

/-- `hashString` from `rubric-versioning.ts` / `server-memory.ts`. -/
def hashString (s : String) : String :=
  natHex8 (toUint32 (hashFold 2166136261 (stringUtf16 s)))

/-! ## Dynamically typed judge JSON -/

/-- A parsed JSON value.  JSON numbers are always finite, so `ℚ` is
adequate.  An object is its field list in source order (`JSON.parse`
keeps the last occurrence of a duplicated key, which `jsGet` models). -/
inductive Json where
  | jnull : Json
  | jbool : Bool → Json
  | jnum : ℚ → Json
  | jstr : String → Json
  | jarr : List Json → Json
  | jobj : List (String × Json) → Json

/-- Property read `obj[key]` on a JS object given as a field list:
the last binding wins, `none` is JS `undefined`. -/
def jsGet (fields : List (String × Json)) (key : String) : Option Json :=
  fields.reverse.lookup key

/-- Optional-chained property read `v?.[key]` where `v` may be any JS
value (`none` = `undefined`): only objects yield properties. -/
def jsMember (v : Option Json) (key : String) : Option Json :=
  match v with
  | some (Json.jobj fields) => jsGet fields key
  | _ => none

/-- JS `String.prototype.trim`: drop leading and trailing whitespace
(the ASCII whitespace classes; JS also trims rarer Unicode spaces). -/
def jsTrim (s : String) : String :=
  String.mk (((s.data.dropWhile Char.isWhitespace).reverse.dropWhile Char.isWhitespace).reverse)

/-- JS `String.prototype.toLowerCase` restricted to ASCII letters. -/
def jsToLower (s : String) : String := String.mk (s.data.map Char.toLower)

/-- `10^e` for an integer exponent, as a rational. -/
def pow10z (e : ℤ) : ℚ :=
  if 0 ≤ e then ((10 : ℚ) ^ e.toNat) else 1 / (10 : ℚ) ^ (-e).toNat

/-- ASCII decimal digit test. -/
def isDigitChar (c : Char) : Bool := 48 ≤ c.toNat && c.toNat ≤ 57

/-- Numeric value of a digit string (caller checks the digits). -/
def natOfDigits (l : List Char) : ℕ :=
  l.foldl (fun n c => n * 10 + (c.toNat - 48)) 0

/-- JS `Number(string)` restricted to decimal literals: optional sign,
digits with optional fraction and exponent; the empty (trimmed) string
is `0`; `Infinity` and everything unparseable is non-finite (`none`).
Hexadecimal/octal/binary literal strings are modelled as non-finite. -/
def jsStringToNumber (s : String) : Option ℚ :=
  let t := (jsTrim s).data
  if t = [] then some 0
  else
    let (sign, rest) : ℚ × List Char :=
      match t with
      | '-' :: r => (-1, r)
      | '+' :: r => (1, r)
      | r => (1, r)
    if rest = "Infinity".data then none
    else
      let (mantissa, expPart) := rest.span (fun c => !(c = 'e' || c = 'E'))
      let expVal : Option ℤ :=
        match expPart with
        | [] => some 0
        | _ :: er =>
          match er with
          | '-' :: ed => if ed ≠ [] && ed.all isDigitChar then some (-(natOfDigits ed : ℤ)) else none
          | '+' :: ed => if ed ≠ [] && ed.all isDigitChar then some (natOfDigits ed : ℤ) else none
          | ed => if ed ≠ [] && ed.all isDigitChar then some (natOfDigits ed : ℤ) else none
      let (intPart, dotRest) := mantissa.span (fun c => !(c = '.'))
      let fracPart : Option (List Char) :=
        match dotRest with
        | [] => some []
        | _ :: f => if f.all (fun c => !(c = '.')) then some f else none
      match expVal, fracPart with
      | some e, some f =>
        if intPart.all isDigitChar && f.all isDigitChar && (intPart ≠ [] || f ≠ []) then
          some (sign * ((natOfDigits intPart : ℚ) + (natOfDigits f : ℚ) / 10 ^ f.length) * pow10z e)
        else none
      | _, _ => none

/-- JS `Number(v)` for a parsed JSON value.  Singleton arrays coerce
through their string form (modelled one level deep; deeper nesting and
non-primitive singletons are simplified to non-finite). -/
def jsNumberOfJson : Json → Option ℚ
  | Json.jnull => some 0
  | Json.jbool b => some (if b then 1 else 0)
  | Json.jnum q => some q
  | Json.jstr s => jsStringToNumber s
  | Json.jarr [] => some 0
  | Json.jarr [Json.jnum q] => some q
  | Json.jarr [Json.jstr s] => jsStringToNumber s
  | Json.jarr [Json.jnull] => some 0
  | Json.jarr _ => none
  | Json.jobj _ => none

/-- `toFiniteNumber` from `judge-output.ts`: coerce to a number and keep
it only if finite; `none` is the `undefined` result. -/
def toFiniteNumber (v : Option Json) : Option ℚ :=
  match v with
  | none => none
  | some j => jsNumberOfJson j

/-! ## Core enumerations -/

/-- The pairwise verdict type `"A" | "B" | "tie"`. -/
inductive Verdict where
  | A : Verdict
  | B : Verdict
  | tie : Verdict
deriving DecidableEq

/-- `ScoreRange = 5 | 10`. -/
inductive ScoreRange where
  | five : ScoreRange
  | ten : ScoreRange
deriving DecidableEq

def ScoreRange.toNat : ScoreRange → ℕ
  | ScoreRange.five => 5
  | ScoreRange.ten => 10

def ScoreRange.toQ (r : ScoreRange) : ℚ := (r.toNat : ℚ)

/-! ## Judge Output Normalizer (`src/lib/judge-output.ts`) -/

/-- `JudgeJsonParseError`: carries the original raw judge text. -/
structure JudgeJsonParseError where
  message : String
  raw : String
deriving DecidableEq

/-- `parseJudgeJson` from `judge-output.ts`.  Fence stripping and
`JSON.parse` happen before the embedding starts: `parsed` is the parse
result of the fence-stripped text (`none` when `JSON.parse` throws).
The function succeeds exactly on a JSON object (`!parsed`,
`typeof !== "object"` and `Array.isArray` reject `null`, scalars and
arrays) and otherwise throws `JudgeJsonParseError` with the original
`text`. -/
def parseJudgeJson (text : String) (parsed : Option Json) :
    Except JudgeJsonParseError (List (String × Json)) :=
  match parsed with
  | some (Json.jobj fields) => Except.ok fields
  | _ => Except.error ⟨"Judge returned invalid JSON", text⟩

/-- `normalizeCriterionScore` from `judge-output.ts`:
default 1 when not coercible to a finite number, else
`Math.round(clamp(n, 1, maxScore))`. -/
def normalizeCriterionScore (raw : Option Json) (maxScore : ScoreRange) : ℤ :=
  match toFiniteNumber raw with
  | none => 1
  | some n => jsRound (clamp n 1 maxScore.toQ)

/-- `normalizeAggregateScore` from `judge-output.ts`:
fall back when not coercible, then `Math.round(clamp(v,0,100)*10)/10`. -/
def normalizeAggregateScore (raw : Option Json) (fallback : ℚ) : ℚ :=
  let value := match toFiniteNumber raw with
    | none => fallback
    | some n => n
  (jsRound (clamp value 0 100 * 10) : ℚ) / 10

/-- JS `String(v)` for a parsed JSON value.  Arrays stringify through
their joined elements; this is modelled one level deep (multi-element
arrays are approximated — their JS form contains a comma, so they never
normalize to a bare `a`/`b` verdict either way). -/
def jsDisplayString : Json → String
  | Json.jnull => "null"
  | Json.jbool b => if b then "true" else "false"
  | Json.jnum q => if q.den = 1 then toString q.num else toString q.num ++ "/" ++ toString q.den
  | Json.jstr s => s
  | Json.jarr [] => ""
  | Json.jarr [Json.jstr s] => s
  | Json.jarr [Json.jnull] => ""
  | Json.jarr _ => "[array]"
  | Json.jobj _ => "[object Object]"

/-- `String(raw ?? "tie")`: the string the verdict normalizer works on
(`??` replaces `undefined`/`null` before the coercion). -/
def verdictSourceString (raw : Option Json) : String :=
  match raw with
  | none => "tie"
  | some Json.jnull => "tie"
  | some j => jsDisplayString j

/-- `normalizeVerdict` from `judge-output.ts`:
`String(raw ?? "tie").trim().toLowerCase()`, then map `"a"`/`"b"`,
anything else to `tie`. -/
def normalizeVerdict (raw : Option Json) : Verdict :=
  let v := jsToLower (jsTrim (verdictSourceString raw))
  if v = "a" then Verdict.A else if v = "b" then Verdict.B else Verdict.tie

/-- `normalizeText` from `judge-output.ts`: trimmed string, else `""`. -/
def normalizeText (raw : Option Json) : String :=
  match raw with
  | some (Json.jstr s) => jsTrim s
  | _ => ""

/-! ## Rubric data model (`src/lib/types.ts`) -/

structure RubricCriterion where
  id : String
  name : String
  description : String
  weight : ℚ
  scoreRange : ScoreRange
deriving DecidableEq

structure Rubric where
  id : String
  name : String
  description : String
  criteria : List RubricCriterion
  isBuiltIn : Bool
  createdAt : String
deriving DecidableEq

structure CriterionScore where
  criterionId : String
  criterionName : String
  score : ℚ
  maxScore : ScoreRange
  reasoning : String
deriving DecidableEq

/-! ## Aggregation Engine -/

/-- `computeAggregateFromScores` from the single-eval route
(`part_007`, lines 152–169): clamp each matched score into
`[1, maxScore]`, weight the percentage by the matched criterion's
weight, divide by the matched weight sum, clamp to `[0,100]`, round to
one decimal; `0` when no weight was matched. -/
def computeAggregateFromScores (scores : List CriterionScore) (rubric : Rubric) : ℚ :=
  let acc := scores.foldl (fun (acc : ℚ × ℚ) cs =>
    match rubric.criteria.find? (fun c => c.id == cs.criterionId) with
    | none => acc
    | some criterion =>
      let clampedScore := max 1 (min cs.maxScore.toQ cs.score)
      let normalized := clampedScore / cs.maxScore.toQ * 100
      (acc.1 + normalized * criterion.weight, acc.2 + criterion.weight)) (0, 0)
  if acc.2 = 0 then 0 else roundTo1 (clamp (acc.1 / acc.2) 0 100)

/-- `computeAggregate` from the pairwise route (`part_008`,
lines 238–251); arithmetically the same as
`computeAggregateFromScores`. -/
def computeAggregate (scores : List CriterionScore) (rubric : Rubric) : ℚ :=
  let acc := scores.foldl (fun (acc : ℚ × ℚ) cs =>
    match rubric.criteria.find? (fun c => c.id == cs.criterionId) with
    | none => acc
    | some criterion =>
      let clampedScore := max 1 (min cs.maxScore.toQ cs.score)
      (acc.1 + clampedScore / cs.maxScore.toQ * 100 * criterion.weight,
       acc.2 + criterion.weight)) (0, 0)
  if acc.2 = 0 then 0 else roundTo1 (clamp (acc.1 / acc.2) 0 100)

/-- `computeAggregateScore` from `src/lib/utils` (`part_001`,
lines 197–214): same weighting but with no clamping of the score or of
the final value. -/
def computeAggregateScore (criterionScores : List CriterionScore)
    (criteria : List RubricCriterion) : ℚ :=
  let acc := criterionScores.foldl (fun (acc : ℚ × ℚ) cs =>
    match criteria.find? (fun c => c.id == cs.criterionId) with
    | none => acc
    | some criterion =>
      let normalized := cs.score / cs.maxScore.toQ * 100
      (acc.1 + normalized * criterion.weight, acc.2 + criterion.weight)) (0, 0)
  if acc.2 = 0 then 0 else roundTo1 (acc.1 / acc.2)

/-- The scores paired with the first rubric criterion matching their
`criterionId` (unmatched scores are dropped) — the matching used by all
three aggregate functions. -/
def matchedPairs (scores : List CriterionScore) (criteria : List RubricCriterion) :
    List (CriterionScore × RubricCriterion) :=
  scores.filterMap (fun cs =>
    (criteria.find? (fun c => c.id == cs.criterionId)).map (fun c => (cs, c)))

/-- The Aggregation Engine contract, written from the specification's
words (§4.4): per matched score, `clampedScore / maxScore * 100` times
the criterion weight, summed; divided by the sum of the matched weights
only; clamped to `[0,100]`; rounded to one decimal; `0` when nothing
matched.  Used to state the refinement claim about
`computeAggregateFromScores`. -/
def specAggregate (scores : List CriterionScore) (rubric : Rubric) : ℚ :=
  let ps := matchedPairs scores rubric.criteria
  let num := (ps.map (fun p =>
    max 1 (min p.1.maxScore.toQ p.1.score) / p.1.maxScore.toQ * 100 * p.2.weight)).sum
  let den := (ps.map (fun p => p.2.weight)).sum
  if den = 0 then 0 else roundTo1 (clamp (num / den) 0 100)

/-- The largest `maxScore` among the matched scores (`0` if none). -/
def largestMatchedMaxScore (scores : List CriterionScore) (rubric : Rubric) : ℚ :=
  ((matchedPairs scores rubric.criteria).map (fun p => p.1.maxScore.toQ)).foldr max 0

/-! ## Rubric Versioning (`rubric-versioning.ts`, `part_000`) -/

/-- Lowercase hex, 4 digits (for JSON `\uXXXX` escapes). -/
def natHex4 (n : ℕ) : String :=
  String.mk ((List.range 4).map (fun i => hexDigitChar (n / 16 ^ (3 - i) % 16)))

/-- `JSON.stringify` escaping of a single character. -/
def escapeJsonChar (c : Char) : String :=
  if c = '"' then "\\\""
  else if c = '\\' then "\\\\"
  else if c = Char.ofNat 10 then "\\n"
  else if c = Char.ofNat 13 then "\\r"
  else if c = Char.ofNat 9 then "\\t"
  else if c = Char.ofNat 8 then "\\b"
  else if c = Char.ofNat 12 then "\\f"
  else if c.toNat < 32 then "\\u" ++ natHex4 c.toNat
  else String.singleton c

/-- `JSON.stringify` of a string value. -/
def jsonQuote (s : String) : String :=
  "\"" ++ String.join (s.data.map escapeJsonChar) ++ "\""

/-- JS number-to-string for values whose denominator divides `10^10`
(every weight rounded to 4 decimals is such a value): decimal form with
trailing zeros stripped, matching the JS shortest representation on
these values.  Non-terminating rationals (unreachable after `round4`)
get a placeholder. -/
def qToDecimalString (q : ℚ) : String :=
  if 10 ^ 10 % q.den = 0 then
    let scaled : ℤ := q.num * ((10 ^ 10 / q.den : ℕ) : ℤ)
    let sign := if scaled < 0 then "-" else ""
    let a := scaled.natAbs
    let ip := a / 10 ^ 10
    let fp := a % 10 ^ 10
    if fp = 0 then sign ++ toString ip
    else
      let digits := String.mk (List.replicate (10 - (toString fp).length) '0') ++ toString fp
      sign ++ toString ip ++ "." ++ String.mk ((digits.data.reverse.dropWhile (fun c => c = '0')).reverse)
  else "[nonterminating]"

/-- `JSON.stringify` of one normalized criterion record inside
`rubricFingerprint`: `{id, trimmed name, trimmed description, weight
rounded to 4 decimals, scoreRange}` in insertion order. -/
def serializeCriterion (c : RubricCriterion) : String :=
  "\x7b\"id\":" ++ jsonQuote c.id ++
  ",\"name\":" ++ jsonQuote (jsTrim c.name) ++
  ",\"description\":" ++ jsonQuote (jsTrim c.description) ++
  ",\"weight\":" ++ qToDecimalString (round4 c.weight) ++
  ",\"scoreRange\":" ++ toString c.scoreRange.toNat ++ "\x7d"

/-- The canonical JSON built by `rubricFingerprint` before hashing. -/
def serializeRubric (r : Rubric) : String :=
  "\x7b\"id\":" ++ jsonQuote r.id ++
  ",\"name\":" ++ jsonQuote (jsTrim r.name) ++
  ",\"description\":" ++ jsonQuote (jsTrim r.description) ++
  ",\"criteria\":[" ++ String.intercalate "," (r.criteria.map serializeCriterion) ++ "]\x7d"

/-- `rubricFingerprint` from `rubric-versioning.ts`. -/
def rubricFingerprint (r : Rubric) : String := hashString (serializeRubric r)

/-- The scoring-relevant canonical form of one criterion (what the
serialization depends on). -/
def canonCriterion (c : RubricCriterion) : String × String × String × ℚ × ScoreRange :=
  (c.id, jsTrim c.name, jsTrim c.description, round4 c.weight, c.scoreRange)

/-! ## Rubric Validator (`src/lib/eval-validation.ts`) -/

def allowedCriterionKeys : List String := ["id", "name", "description", "weight", "scoreRange"]

def allowedRubricKeys : List String :=
  ["id", "name", "description", "criteria", "isBuiltIn", "createdAt"]

/-- `z.string().min(1)`. -/
def isNonEmptyStr : Option Json → Bool
  | some (Json.jstr s) => !s.isEmpty
  | _ => false

/-- `z.string()`. -/
def isStr : Option Json → Bool
  | some (Json.jstr _) => true
  | _ => false

/-- `z.boolean()`. -/
def isBool : Option Json → Bool
  | some (Json.jbool _) => true
  | _ => false

/-- `RubricCriterionSchema` (strict): id/name/description non-empty
strings, weight a finite positive number at most 1, scoreRange
literally `5` or `10`, and no unknown keys. -/
def validateCriterionJson : Json → Bool
  | Json.jobj fields =>
    fields.all (fun kv => allowedCriterionKeys.contains kv.1) &&
    isNonEmptyStr (jsGet fields "id") &&
    isNonEmptyStr (jsGet fields "name") &&
    isNonEmptyStr (jsGet fields "description") &&
    (match jsGet fields "weight" with
     | some (Json.jnum q) => decide (0 < q) && decide (q ≤ 1)
     | _ => false) &&
    (match jsGet fields "scoreRange" with
     | some (Json.jnum q) => decide (q = 5) || decide (q = 10)
     | _ => false)
  | _ => false

/-- The weight read from a (shape-valid) criterion object. -/
def criterionWeightOf : Json → ℚ
  | Json.jobj fields =>
    match jsGet fields "weight" with
    | some (Json.jnum q) => q
    | _ => 0
  | _ => 0

/-- `RubricSchema.safeParse(x).success`: the strict rubric shape plus
the `superRefine` weight-sum check (`sum > 0` and `|sum - 1| ≤ 0.02`). -/
def validateRubricJson : Json → Bool
  | Json.jobj fields =>
    fields.all (fun kv => allowedRubricKeys.contains kv.1) &&
    isNonEmptyStr (jsGet fields "id") &&
    isNonEmptyStr (jsGet fields "name") &&
    isStr (jsGet fields "description") &&
    isBool (jsGet fields "isBuiltIn") &&
    isNonEmptyStr (jsGet fields "createdAt") &&
    (match jsGet fields "criteria" with
     | some (Json.jarr cs) =>
       !cs.isEmpty && cs.all validateCriterionJson &&
       (let total := (cs.map criterionWeightOf).sum
        decide (0 < total) && decide (|total - 1| ≤ 1/50))
     | _ => false)
  | _ => false

/-- Only the acceptance conditions that claim C7 lists: non-empty
criteria, every weight in `(0,1]`, weight sum within `[0.98, 1.02]`,
and strict key sets — written to state the claim's "if and only if". -/
def claimedRubricOk : Json → Bool
  | Json.jobj fields =>
    fields.all (fun kv => allowedRubricKeys.contains kv.1) &&
    (match jsGet fields "criteria" with
     | some (Json.jarr cs) =>
       !cs.isEmpty &&
       cs.all (fun c =>
         (match c with
          | Json.jobj cf => cf.all (fun kv => allowedCriterionKeys.contains kv.1)
          | _ => false) &&
         (match criterionWeightOf c with
          | q => decide (0 < q) && decide (q ≤ 1))) &&
       (let total := (cs.map criterionWeightOf).sum
        decide (|total - 1| ≤ 1/50))
     | _ => false)
  | _ => false

/-- A non-empty JSON string, as a proposition (`z.string().min(1)`). -/
def NonEmptyStrP (o : Option Json) : Prop :=
  ∃ s, o = some (Json.jstr s) ∧ s ≠ ""

/-- `RubricCriterionSchema` acceptance, written out as a proposition
(used to state what `validateCriterionJson` decides). -/
def ValidCriterionJson (c : Json) : Prop :=
  ∃ cf, c = Json.jobj cf ∧
    (∀ kv ∈ cf, kv.1 ∈ allowedCriterionKeys) ∧
    NonEmptyStrP (jsGet cf "id") ∧
    NonEmptyStrP (jsGet cf "name") ∧
    NonEmptyStrP (jsGet cf "description") ∧
    (∃ q, jsGet cf "weight" = some (Json.jnum q) ∧ 0 < q ∧ q ≤ 1) ∧
    (∃ q, jsGet cf "scoreRange" = some (Json.jnum q) ∧ (q = 5 ∨ q = 10))

/-- `RubricSchema` acceptance, written out as a proposition: the strict
shape conditions plus the `superRefine` weight-sum window. -/
def ValidRubricJson (j : Json) : Prop :=
  ∃ fs cs, j = Json.jobj fs ∧
    (∀ kv ∈ fs, kv.1 ∈ allowedRubricKeys) ∧
    NonEmptyStrP (jsGet fs "id") ∧
    NonEmptyStrP (jsGet fs "name") ∧
    (∃ s, jsGet fs "description" = some (Json.jstr s)) ∧
    (∃ b, jsGet fs "isBuiltIn" = some (Json.jbool b)) ∧
    NonEmptyStrP (jsGet fs "createdAt") ∧
    jsGet fs "criteria" = some (Json.jarr cs) ∧
    cs ≠ [] ∧
    (∀ c ∈ cs, ValidCriterionJson c) ∧
    0 < (cs.map criterionWeightOf).sum ∧
    |(cs.map criterionWeightOf).sum - 1| ≤ 1/50

/-! ## Pairwise Position-Bias Protocol (`part_008`) -/

/-- `extractPairwiseScores`: read `scores[id_side]` and
`criterion_reasoning[id_side_reasoning]` for each rubric criterion. -/
def extractPairwiseScores (parsed : List (String × Json)) (rubric : Rubric)
    (side : String) : List CriterionScore :=
  rubric.criteria.map (fun c =>
    { criterionId := c.id
      criterionName := c.name
      score := (normalizeCriterionScore
        (jsMember (jsGet parsed "scores") (c.id ++ "_" ++ side)) c.scoreRange : ℚ)
      maxScore := c.scoreRange
      reasoning := normalizeText
        (jsMember (jsGet parsed "criterion_reasoning") (c.id ++ "_" ++ side ++ "_reasoning")) })

/-- Swapping a verdict between the physical and the canonical order
(`A ↦ B`, `B ↦ A`, `tie ↦ tie`) — the match inlined in
`runPairwiseEval`. -/
def swapVerdict : Verdict → Verdict
  | Verdict.A => Verdict.B
  | Verdict.B => Verdict.A
  | Verdict.tie => Verdict.tie

/-- The presentation order of the two responses. -/
inductive Order where
  | AB : Order
  | BA : Order
deriving DecidableEq

structure PairwiseJudgeOutcome where
  chainOfThought : String
  summary : String
  scoresA : List CriterionScore
  scoresB : List CriterionScore
  aggregateA : ℚ
  aggregateB : ℚ
  verdict : Verdict
  verdictReasoning : String
deriving DecidableEq

/-- `runPairwiseEval` (`part_008`, lines 253–328) from the point where
the judge's reply has been parsed: reconcile `_A`/`_B`-keyed scores and
the raw verdict back to canonical A/B according to the presentation
order, and fill the aggregates with the Aggregation Engine fallback. -/
def runPairwiseEval (parsed : List (String × Json)) (rubric : Rubric)
    (order : Order) : PairwiseJudgeOutcome :=
  let scoresA := match order with
    | Order.AB => extractPairwiseScores parsed rubric "A"
    | Order.BA => extractPairwiseScores parsed rubric "B"
  let scoresB := match order with
    | Order.AB => extractPairwiseScores parsed rubric "B"
    | Order.BA => extractPairwiseScores parsed rubric "A"
  let rawVerdict := normalizeVerdict (jsGet parsed "verdict")
  let verdict := match order with
    | Order.AB => rawVerdict
    | Order.BA =>
      match rawVerdict with
      | Verdict.A => Verdict.B
      | Verdict.B => Verdict.A
      | Verdict.tie => Verdict.tie
  { chainOfThought := normalizeText (jsGet parsed "chain_of_thought")
    summary := normalizeText (jsGet parsed "summary")
    scoresA := scoresA
    scoresB := scoresB
    aggregateA := normalizeAggregateScore (jsGet parsed "aggregate_score_A")
      (computeAggregate scoresA rubric)
    aggregateB := normalizeAggregateScore (jsGet parsed "aggregate_score_B")
      (computeAggregate scoresB rubric)
    verdict := verdict
    verdictReasoning := normalizeText (jsGet parsed "verdict_reasoning") }

structure PairwiseProtocolResult where
  primary : PairwiseJudgeOutcome
  reversedVerdict : Option Verdict
  positionBiasDetected : Option Bool
deriving DecidableEq

/-- The pairwise route (`part_008`, lines 383–425) after both judge
replies are parsed: primary call in order AB; when bias detection is
requested, a reversed call in order BA, with
`positionBiasDetected = (primary.verdict !== reversed.verdict)`. -/
def runPairwiseProtocol (primaryParsed reversedParsed : List (String × Json))
    (rubric : Rubric) (detectPositionBias : Bool) : PairwiseProtocolResult :=
  let primary := runPairwiseEval primaryParsed rubric Order.AB
  if detectPositionBias then
    let rev := runPairwiseEval reversedParsed rubric Order.BA
    { primary := primary
      reversedVerdict := some rev.verdict
      positionBiasDetected := some (primary.verdict != rev.verdict) }
  else
    { primary := primary, reversedVerdict := none, positionBiasDetected := none }

/-! ## Prompt/Schema Builder (`src/lib/prompts.ts`) -/

structure PairwiseEvalInput where
  prompt : String
  responseA : String
  responseB : String
  modelLabelA : Option String
  modelLabelB : Option String
  rubricId : String
  modelId : String
  doubleBlind : Bool
  detectPositionBias : Bool
  context : Option String
deriving DecidableEq

/-- `(q).toFixed(0)` (ties resolved toward the larger integer, as the
`toFixed` specification does). -/
def toFixed0 (q : ℚ) : String := toString (jsRound q)

/-- `formatCriteriaBlock`. -/
def formatCriteriaBlock (rubric : Rubric) : String :=
  String.intercalate "\n" (rubric.criteria.enum.map (fun p =>
    toString (p.1 + 1) ++ ". **" ++ p.2.name ++ "** (weight: " ++
    toFixed0 (p.2.weight * 100) ++ "%, score range: 1–" ++
    toString p.2.scoreRange.toNat ++ ")\n   " ++ p.2.description))

/-- `formatPairwiseOutputSchema`: the exact JSON template the judge is
asked to fill, keyed by criterion id with `_A`/`_B` suffixes. -/
def formatPairwiseOutputSchema (rubric : Rubric) : String :=
  let scoreKeysA := String.intercalate ",\n" (rubric.criteria.map (fun c =>
    "    \"" ++ c.id ++ "_A\": <integer between 1 and " ++ toString c.scoreRange.toNat ++ ">"))
  let scoreKeysB := String.intercalate ",\n" (rubric.criteria.map (fun c =>
    "    \"" ++ c.id ++ "_B\": <integer between 1 and " ++ toString c.scoreRange.toNat ++ ">"))
  let reasoningKeysA := String.intercalate ",\n" (rubric.criteria.map (fun c =>
    "    \"" ++ c.id ++ "_A_reasoning\": \"<explanation>\""))
  let reasoningKeysB := String.intercalate ",\n" (rubric.criteria.map (fun c =>
    "    \"" ++ c.id ++ "_B_reasoning\": \"<explanation>\""))
  "\x7b\n  \"chain_of_thought\": \"<Concise comparison rationale (3-6 short bullet points) covering A, B, and final tradeoff.>\",\n  \"scores\": \x7b\n" ++
  scoreKeysA ++ ",\n" ++ scoreKeysB ++
  "\n  \x7d,\n  \"criterion_reasoning\": \x7b\n" ++
  reasoningKeysA ++ ",\n" ++ reasoningKeysB ++
  "\n  \x7d,\n  \"summary\": \"<2-3 sentence overall comparison summary>\",\n  \"aggregate_score_A\": <float between 0.0 and 100.0>,\n  \"aggregate_score_B\": <float between 0.0 and 100.0>,\n  \"verdict\": \"<exactly one of: \x27A\x27, \x27B\x27, or \x27tie\x27>\",\n  \"verdict_reasoning\": \"<2-3 sentences explaining your verdict — which response better served the user\x27s need and why. If \x27tie\x27, explain why both are genuinely equivalent.>\"\n\x7d"

/-- `label?.trim() || default`. -/
def labelOrDefault (label : Option String) (dflt : String) : String :=
  match label with
  | none => dflt
  | some s => if jsTrim s = "" then dflt else jsTrim s

/-- `buildPairwisePrompt` from `src/lib/prompts.ts` (lines 293–355). -/
def buildPairwisePrompt (input : PairwiseEvalInput) (rubric : Rubric)
    (order : Order) : String :=
  let responseFirst := match order with
    | Order.AB => input.responseA
    | Order.BA => input.responseB
  let responseSecond := match order with
    | Order.AB => input.responseB
    | Order.BA => input.responseA
  let labelFirst := match order with
    | Order.AB => labelOrDefault input.modelLabelA "Model A"
    | Order.BA => labelOrDefault input.modelLabelB "Model B"
  let labelSecond := match order with
    | Order.AB => labelOrDefault input.modelLabelB "Model B"
    | Order.BA => labelOrDefault input.modelLabelA "Model A"
  let responseAHeading := if input.doubleBlind then "Response A"
    else "Response A (" ++ labelFirst ++ ")"
  let responseBHeading := if input.doubleBlind then "Response B"
    else "Response B (" ++ labelSecond ++ ")"
  let contextBlock := match input.context with
    | none => ""
    | some ctx =>
      if ctx = "" then ""
      else "\n## Reference Context / System Prompt\n" ++ ctx ++ "\n"
  let labelContext := if input.doubleBlind then
      "\n## Evaluation Mode\nDouble-blind. Model identities are intentionally hidden."
    else
      "\n## Evaluation Mode\nNot blind. Labels are provided:\n- Response A label: " ++
      labelFirst ++ "\n- Response B label: " ++ labelSecond
  "You are an expert LLM response evaluator. Your job is to compare two responses to the same prompt and determine which is better.\n\n## Critical Instructions\n- Analyze carefully, but output only concise rationale in \"chain_of_thought\" (3-6 bullets).\n- Evaluate each response INDEPENDENTLY before comparing them — do not let your impression of one affect your scoring of the other.\n- Response LENGTH is NOT a proxy for quality. Prefer substance, accuracy, and relevance over verbosity.\n- Guard against POSITION BIAS: do not favor a response simply because it appears first or second.\n- Use the FULL score range — do not cluster scores near the middle.\n- The verdict must be exactly \"A\", \"B\", or \"tie\". Reserve \"tie\" for cases where both responses are genuinely equivalent in quality.\n- Output ONLY valid JSON matching the exact schema below. No markdown code fences, no extra text.\n" ++
  contextBlock ++ "\n" ++ labelContext ++
  "\n## Prompt Given to the LLM\n" ++ input.prompt ++
  "\n\n## " ++ responseAHeading ++ "\n" ++ responseFirst ++
  "\n\n## " ++ responseBHeading ++ "\n" ++ responseSecond ++
  "\n\n## Rubric: " ++ rubric.name ++ "\n" ++ rubric.description ++
  "\n\n### Criteria\n" ++ formatCriteriaBlock rubric ++
  "\n\n## Output Schema (output this JSON and nothing else)\n" ++
  formatPairwiseOutputSchema rubric

/-! ## Experiment run storage (`part_004`, lines 265–268; the same
replace-by-id shape is used by `store.ts`) -/

structure ExperimentRun where
  id : String
  identityKey : String
deriving DecidableEq

/-- `memory.experimentRuns = [run, ...memory.experimentRuns.filter(
(existing) => existing.id !== run.id)]`. -/
def storeExperimentRun (run : ExperimentRun) (runs : List ExperimentRun) :
    List ExperimentRun :=
  run :: runs.filter (fun existing => existing.id != run.id)

/-! ## Judge-QA statistics (`judge-qa/calibrate/route.ts`) -/

def verdictLabels : List Verdict := [Verdict.A, Verdict.B, Verdict.tie]

/-- The expected-by-chance agreement `pe` computed inside `cohenKappa`:
product of the two sides' marginal label frequencies, summed over the
three labels. -/
def peOf (human judge : List Verdict) : ℚ :=
  let n : ℚ := (human.length : ℚ)
  (verdictLabels.map (fun lab =>
    ((human.count lab : ℚ) / n) * ((judge.count lab : ℚ) / n))).sum

/-- `cohenKappa` from `judge-qa/calibrate/route.ts` (lines 27–52). -/
def cohenKappa (human judge : List Verdict) : ℚ :=
  if human.length = 0 ∨ judge.length = 0 ∨ human.length ≠ judge.length then 0
  else
    let n : ℚ := (human.length : ℚ)
    let observed : ℚ := (((human.zip judge).countP (fun p => p.1 == p.2) : ℕ) : ℚ)
    let p0 := observed / n
    let pe := peOf human judge
    if 999999/1000000 ≤ pe then 0
    else (p0 - pe) / (1 - pe)

/-! ## Concrete fixtures used by counterexamples and witnesses -/

/-- A two-criterion rubric with weights `0.5`/`0.5` and score range 5
(the shape of spec example scenario 1). -/
def fixtureRubric : Rubric :=
  ⟨"r1", "Quality", "desc",
   [⟨"c1", "Clarity", "clear", 1/2, ScoreRange.five⟩,
    ⟨"c2", "Depth", "deep", 1/2, ScoreRange.five⟩],
   false, "2025-01-01"⟩

/-- `fixtureRubric` with the first weight moved by `0.00001` — below
the 4-decimal rounding step used by the fingerprint. -/
def fixtureRubricTinyWeight : Rubric :=
  ⟨"r1", "Quality", "desc",
   [⟨"c1", "Clarity", "clear", 50001/100000, ScoreRange.five⟩,
    ⟨"c2", "Depth", "deep", 1/2, ScoreRange.five⟩],
   false, "2025-01-01"⟩

/-- `fixtureRubric` with whitespace padding around the rubric and
criterion texts (trimmed away by the fingerprint). -/
def fixtureRubricPadded : Rubric :=
  ⟨"r1", "  Quality ", " desc  ",
   [⟨"c1", " Clarity ", "clear ", 1/2, ScoreRange.five⟩,
    ⟨"c2", "Depth", " deep", 1/2, ScoreRange.five⟩],
   false, "2025-06-30"⟩

/-- `fixtureRubric` with the first weight moved at the 4-decimal level. -/
def fixtureRubricWeight4 : Rubric :=
  ⟨"r1", "Quality", "desc",
   [⟨"c1", "Clarity", "clear", 4/10, ScoreRange.five⟩,
    ⟨"c2", "Depth", "deep", 6/10, ScoreRange.five⟩],
   false, "2025-01-01"⟩

/-- `fixtureRubric` with the first criterion's score range changed. -/
def fixtureRubricRange : Rubric :=
  ⟨"r1", "Quality", "desc",
   [⟨"c1", "Clarity", "clear", 1/2, ScoreRange.ten⟩,
    ⟨"c2", "Depth", "deep", 1/2, ScoreRange.five⟩],
   false, "2025-01-01"⟩

/-- `fixtureRubric` with the first criterion's id changed. -/
def fixtureRubricId : Rubric :=
  ⟨"r1", "Quality", "desc",
   [⟨"c1x", "Clarity", "clear", 1/2, ScoreRange.five⟩,
    ⟨"c2", "Depth", "deep", 1/2, ScoreRange.five⟩],
   false, "2025-01-01"⟩

/-- `fixtureRubric` with the rubric name changed beyond whitespace. -/
def fixtureRubricRenamed : Rubric :=
  ⟨"r1", "Qualities", "desc",
   [⟨"c1", "Clarity", "clear", 1/2, ScoreRange.five⟩,
    ⟨"c2", "Depth", "deep", 1/2, ScoreRange.five⟩],
   false, "2025-01-01"⟩

/-- Scores 4/5 and 2/5 against `fixtureRubric` (spec scenario 1). -/
def fixtureScores : List CriterionScore :=
  [⟨"c1", "Clarity", 4, ScoreRange.five, ""⟩,
   ⟨"c2", "Depth", 2, ScoreRange.five, ""⟩]

/-- A rubric-shaped JSON object that satisfies every condition claim C7
lists (non-empty criteria, weights in `(0,1]`, weight sum `1`, no
unknown keys) but has an empty `id` string. -/
def fixtureRubricJsonEmptyId : Json :=
  Json.jobj [("id", Json.jstr ""), ("name", Json.jstr "Quality"),
    ("description", Json.jstr "desc"), ("isBuiltIn", Json.jbool false),
    ("createdAt", Json.jstr "2025-01-01"),
    ("criteria", Json.jarr [Json.jobj [("id", Json.jstr "c1"),
      ("name", Json.jstr "Clarity"), ("description", Json.jstr "clear"),
      ("weight", Json.jnum 1), ("scoreRange", Json.jnum 5)]])]

/-- A rubric-shaped JSON object the validator accepts. -/
def fixtureRubricJsonGood : Json :=
  Json.jobj [("id", Json.jstr "r1"), ("name", Json.jstr "Quality"),
    ("description", Json.jstr "desc"), ("isBuiltIn", Json.jbool false),
    ("createdAt", Json.jstr "2025-01-01"),
    ("criteria", Json.jarr [Json.jobj [("id", Json.jstr "c1"),
      ("name", Json.jstr "Clarity"), ("description", Json.jstr "clear"),
      ("weight", Json.jnum (1/2)), ("scoreRange", Json.jnum 5)],
      Json.jobj [("id", Json.jstr "c2"), ("name", Json.jstr "Depth"),
      ("description", Json.jstr "deep"), ("weight", Json.jnum (1/2)),
      ("scoreRange", Json.jnum 10)]])]

/-- Two stored runs with distinct (fresh-nanoid) ids but the same
identity key. -/
def fixtureRunOld : ExperimentRun := ⟨"exp-aaaa", "11112222"⟩

def fixtureRunNew : ExperimentRun := ⟨"exp-bbbb", "11112222"⟩

/-- A parsed judge reply whose raw verdict is `"A"`. -/
def fixtureVerdictA : List (String × Json) := [("verdict", Json.jstr "A")]

/-! # Theorems -/

/-- C3: for every input value (of any JSON shape, or absent) and every
score range, `normalizeCriterionScore` returns an integer in
`[1, maxScore]` (the return type `ℤ` reflects that the result is always
an integer). -/
theorem normalizeCriterionScore_in_range :
    ∀ (raw : Option Json) (maxScore : ScoreRange),
      1 ≤ normalizeCriterionScore raw maxScore ∧
      normalizeCriterionScore raw maxScore ≤ (maxScore.toNat : ℤ) := by
  intro raw m
  unfold normalizeCriterionScore
  cases h : toFiniteNumber raw with
  | none =>
    refine ⟨le_refl 1, ?_⟩
    cases m <;> simp [ScoreRange.toNat]
  | some n =>
    have hm1 : (1 : ℚ) ≤ m.toQ := by
      cases m <;> norm_num [ScoreRange.toQ, ScoreRange.toNat]
    have hc1 : (1 : ℚ) ≤ clamp n 1 m.toQ := le_max_left _ _
    have hc2 : clamp n 1 m.toQ ≤ m.toQ := max_le hm1 (min_le_left _ _)
    have hcast : m.toQ = ((m.toNat : ℤ) : ℚ) := by
      cases m <;> norm_num [ScoreRange.toQ, ScoreRange.toNat]
    constructor
    · exact Int.le_floor.mpr (by push_cast; linarith)
    · refine Int.lt_add_one_iff.mp (Int.floor_lt.mpr ?_)
      have h2 : clamp n 1 m.toQ ≤ ((m.toNat : ℕ) : ℚ) := by
        refine le_trans hc2 (le_of_eq ?_)
        cases m <;> norm_num [ScoreRange.toQ, ScoreRange.toNat]
      push_cast
      linarith

/-- Witness for C3 at a concrete input. -/
theorem normalizeCriterionScore_in_range_witness :
    1 ≤ normalizeCriterionScore (some (Json.jnum 42)) ScoreRange.five ∧
    normalizeCriterionScore (some (Json.jnum 42)) ScoreRange.five ≤
      ((ScoreRange.five).toNat : ℤ) :=
  normalizeCriterionScore_in_range (some (Json.jnum 42)) ScoreRange.five

/-- C2: the judge-output normalizer hard-fails only at the top level
(`parseJudgeJson` errors, carrying the raw text, exactly on a non-object
parse result) and degrades gracefully on fields (score defaults to 1,
reasoning to `""`, aggregate falls back then clamps and rounds, verdict
defaults to `tie`).  Fence stripping and `JSON.parse` run before the
embedding starts: `parsed` is the parse outcome of the fence-stripped
text, `none` when `JSON.parse` throws. -/
theorem judge_normalizer_degrades_gracefully :
    (∀ text parsed fields,
        parseJudgeJson text parsed = Except.ok fields ↔ parsed = some (Json.jobj fields)) ∧
    (∀ text parsed e, parseJudgeJson text parsed = Except.error e → e.raw = text) ∧
    (∀ text parsed, (∀ fields, parsed ≠ some (Json.jobj fields)) →
        parseJudgeJson text parsed = Except.error ⟨"Judge returned invalid JSON", text⟩) ∧
    (∀ raw m, toFiniteNumber raw = none → normalizeCriterionScore raw m = 1) ∧
    (∀ raw, (∀ s, raw ≠ some (Json.jstr s)) → normalizeText raw = "") ∧
    (∀ raw fallback, toFiniteNumber raw = none →
        normalizeAggregateScore raw fallback = roundTo1 (clamp fallback 0 100)) ∧
    (∀ raw fallback q, toFiniteNumber raw = some q →
        normalizeAggregateScore raw fallback = roundTo1 (clamp q 0 100)) ∧
    (∀ raw, jsToLower (jsTrim (verdictSourceString raw)) ≠ "a" →
        jsToLower (jsTrim (verdictSourceString raw)) ≠ "b" →
        normalizeVerdict raw = Verdict.tie) := by
  refine ⟨?_, ?_, ?_, ?_, ?_, ?_, ?_, ?_⟩
  · intro t p f
    match p with
    | none => simp [parseJudgeJson]
    | some Json.jnull => simp [parseJudgeJson]
    | some (Json.jbool b) => simp [parseJudgeJson]
    | some (Json.jnum q) => simp [parseJudgeJson]
    | some (Json.jstr s) => simp [parseJudgeJson]
    | some (Json.jarr xs) => simp [parseJudgeJson]
    | some (Json.jobj fs) => simp [parseJudgeJson]
  · intro t p e h
    match p with
    | none => simp [parseJudgeJson] at h; rw [← h]
    | some Json.jnull => simp [parseJudgeJson] at h; rw [← h]
    | some (Json.jbool b) => simp [parseJudgeJson] at h; rw [← h]
    | some (Json.jnum q) => simp [parseJudgeJson] at h; rw [← h]
    | some (Json.jstr s) => simp [parseJudgeJson] at h; rw [← h]
    | some (Json.jarr xs) => simp [parseJudgeJson] at h; rw [← h]
    | some (Json.jobj fs) => simp [parseJudgeJson] at h
  · intro t p hp
    match p with
    | none => simp [parseJudgeJson]
    | some Json.jnull => simp [parseJudgeJson]
    | some (Json.jbool b) => simp [parseJudgeJson]
    | some (Json.jnum q) => simp [parseJudgeJson]
    | some (Json.jstr s) => simp [parseJudgeJson]
    | some (Json.jarr xs) => simp [parseJudgeJson]
    | some (Json.jobj fs) => exact absurd rfl (hp fs)
  · intro raw m h
    unfold normalizeCriterionScore
    rw [h]
  · intro raw h
    match raw with
    | none => simp [normalizeText]
    | some Json.jnull => simp [normalizeText]
    | some (Json.jbool b) => simp [normalizeText]
    | some (Json.jnum q) => simp [normalizeText]
    | some (Json.jstr s) => exact absurd rfl (h s)
    | some (Json.jarr xs) => simp [normalizeText]
    | some (Json.jobj fs) => simp [normalizeText]
  · intro raw fb h
    unfold normalizeAggregateScore roundTo1
    rw [h]
  · intro raw fb q h
    unfold normalizeAggregateScore roundTo1
    rw [h]
  · intro raw h1 h2
    unfold normalizeVerdict
    rw [if_neg h1, if_neg h2]

/-- Witness for C2 at concrete inputs. -/
theorem judge_normalizer_degrades_gracefully_witness :
    parseJudgeJson "oops" none = Except.error ⟨"Judge returned invalid JSON", "oops"⟩ ∧
    normalizeCriterionScore (some (Json.jstr "abc")) ScoreRange.ten = 1 ∧
    normalizeText (some (Json.jnum 3)) = "" ∧
    normalizeAggregateScore (some (Json.jstr "abc")) 55 = roundTo1 (clamp 55 0 100) ∧
    normalizeAggregateScore (some (Json.jstr "7e1")) 55 = roundTo1 (clamp 70 0 100) ∧
    normalizeVerdict (some (Json.jstr "meh")) = Verdict.tie :=
  ⟨judge_normalizer_degrades_gracefully.2.2.1 "oops" none (fun fields => by simp),
   judge_normalizer_degrades_gracefully.2.2.2.1 (some (Json.jstr "abc")) ScoreRange.ten
     (by with_unfolding_all decide),
   judge_normalizer_degrades_gracefully.2.2.2.2.1 (some (Json.jnum 3))
     (fun s => by simp),
   judge_normalizer_degrades_gracefully.2.2.2.2.2.1 (some (Json.jstr "abc")) 55
     (by with_unfolding_all decide),
   judge_normalizer_degrades_gracefully.2.2.2.2.2.2.1 (some (Json.jstr "7e1")) 55 70
     (by with_unfolding_all decide),
   judge_normalizer_degrades_gracefully.2.2.2.2.2.2.2 (some (Json.jstr "meh"))
     (by with_unfolding_all decide) (by with_unfolding_all decide)⟩

/-- C4: in the pairwise protocol, order BA reads canonical A scores from
the `_B` keys and canonical B scores from the `_A` keys, reports the raw
verdict swapped (unchanged for AB), and sets `positionBiasDetected`
exactly when the two canonical verdicts differ; concretely, primary
verdict `A` with reversed raw verdict `A` gives canonical reversed
verdict `B` and a detected bias. -/
theorem pairwise_reconciliation_canonical :
    (∀ parsed rubric,
        (runPairwiseEval parsed rubric Order.BA).scoresA =
          extractPairwiseScores parsed rubric "B" ∧
        (runPairwiseEval parsed rubric Order.BA).scoresB =
          extractPairwiseScores parsed rubric "A" ∧
        (runPairwiseEval parsed rubric Order.BA).verdict =
          swapVerdict (normalizeVerdict (jsGet parsed "verdict")) ∧
        (runPairwiseEval parsed rubric Order.AB).verdict =
          normalizeVerdict (jsGet parsed "verdict")) ∧
    (∀ pp rp rubric,
        (runPairwiseProtocol pp rp rubric true).positionBiasDetected =
          some ((runPairwiseEval pp rubric Order.AB).verdict !=
                (runPairwiseEval rp rubric Order.BA).verdict) ∧
        ((runPairwiseProtocol pp rp rubric true).positionBiasDetected = some true ↔
          (runPairwiseEval pp rubric Order.AB).verdict ≠
            (runPairwiseEval rp rubric Order.BA).verdict)) ∧
    ((runPairwiseEval fixtureVerdictA fixtureRubric Order.AB).verdict = Verdict.A ∧
     (runPairwiseEval fixtureVerdictA fixtureRubric Order.BA).verdict = Verdict.B ∧
     (runPairwiseProtocol fixtureVerdictA fixtureVerdictA fixtureRubric
        true).positionBiasDetected = some true) := by
  refine ⟨?_, ?_, ?_⟩
  · intro parsed rubric
    refine ⟨rfl, rfl, ?_, rfl⟩
    cases h : normalizeVerdict (jsGet parsed "verdict") <;>
      simp [runPairwiseEval, swapVerdict, h]
  · intro pp rp rubric
    refine ⟨rfl, ?_⟩
    rw [show (runPairwiseProtocol pp rp rubric true).positionBiasDetected =
      some ((runPairwiseEval pp rubric Order.AB).verdict !=
            (runPairwiseEval rp rubric Order.BA).verdict) from rfl]
    generalize (runPairwiseEval pp rubric Order.AB).verdict = v1
    generalize (runPairwiseEval rp rubric Order.BA).verdict = v2
    cases v1 <;> cases v2 <;> simp
  · refine ⟨?_, ?_, ?_⟩ <;> with_unfolding_all decide

/-- Witness for C4 at the concrete fixture reply. -/
theorem pairwise_reconciliation_canonical_witness :
    (runPairwiseEval fixtureVerdictA fixtureRubric Order.BA).scoresA =
      extractPairwiseScores fixtureVerdictA fixtureRubric "B" ∧
    (runPairwiseProtocol fixtureVerdictA fixtureVerdictA fixtureRubric
        true).positionBiasDetected =
      some ((runPairwiseEval fixtureVerdictA fixtureRubric Order.AB).verdict !=
            (runPairwiseEval fixtureVerdictA fixtureRubric Order.BA).verdict) :=
  ⟨(pairwise_reconciliation_canonical.1 fixtureVerdictA fixtureRubric).1,
   (pairwise_reconciliation_canonical.2.1 fixtureVerdictA fixtureVerdictA fixtureRubric).1⟩

/-- C6 counterexample: recording a run whose identity key equals a
stored run's identity key does not replace it — the filter is on the
run `id` (a fresh nanoid), so both runs remain stored. -/
theorem storeExperimentRun_same_identityKey_not_replaced :
    fixtureRunOld.identityKey = fixtureRunNew.identityKey ∧
    fixtureRunOld ≠ fixtureRunNew ∧
    storeExperimentRun fixtureRunNew (storeExperimentRun fixtureRunOld []) =
      [fixtureRunNew, fixtureRunOld] ∧
    fixtureRunOld ∈ storeExperimentRun fixtureRunNew (storeExperimentRun fixtureRunOld []) := by
  refine ⟨rfl, ?_, ?_, ?_⟩ <;> with_unfolding_all decide

/-- C6 amended: recording replaces by run id only — the new run is the
only stored run with its id, distinctness of stored run ids is
preserved, and every run with a different id survives (runs that merely
share an identity key are kept, not replaced). -/
theorem storeExperimentRun_replaces_by_id :
    ∀ (run : ExperimentRun) (runs : List ExperimentRun),
      (∀ r ∈ storeExperimentRun run runs, r.id = run.id → r = run) ∧
      ((runs.map ExperimentRun.id).Nodup →
        ((storeExperimentRun run runs).map ExperimentRun.id).Nodup) ∧
      (∀ r ∈ runs, r.id ≠ run.id → r ∈ storeExperimentRun run runs) := by
  intro run runs
  refine ⟨?_, ?_, ?_⟩
  · intro r hr hid
    rcases List.mem_cons.mp hr with h | h
    · exact h
    · have := (List.mem_filter.mp h).2
      simp [bne_iff_ne] at this
      exact absurd hid this
  · intro hnd
    unfold storeExperimentRun
    rw [List.map_cons]
    refine List.nodup_cons.mpr ⟨?_, ?_⟩
    · intro hmem
      rcases List.mem_map.mp hmem with ⟨r, hrf, hid⟩
      have := (List.mem_filter.mp hrf).2
      simp [bne_iff_ne] at this
      exact this hid
    · exact List.Nodup.sublist (List.Sublist.map _ (List.filter_sublist _)) hnd
  · intro r hr hne
    exact List.mem_cons_of_mem _
      (List.mem_filter.mpr ⟨hr, by simpa [bne_iff_ne] using hne⟩)

/-- The fold inside `computeAggregateFromScores` accumulates exactly
the matched weighted-percentage sum and the matched weight sum. -/
theorem aggregateFold_eq (criteria : List RubricCriterion) :
    ∀ (scores : List CriterionScore) (a b : ℚ),
      scores.foldl (fun (acc : ℚ × ℚ) cs =>
        match criteria.find? (fun c => c.id == cs.criterionId) with
        | none => acc
        | some criterion =>
          let clampedScore := max 1 (min cs.maxScore.toQ cs.score)
          let normalized := clampedScore / cs.maxScore.toQ * 100
          (acc.1 + normalized * criterion.weight, acc.2 + criterion.weight)) (a, b) =
      (a + ((matchedPairs scores criteria).map (fun p =>
          max 1 (min p.1.maxScore.toQ p.1.score) / p.1.maxScore.toQ * 100 * p.2.weight)).sum,
       b + ((matchedPairs scores criteria).map (fun p => p.2.weight)).sum) := by
  intro scores
  induction scores with
  | nil => intro a b; simp [matchedPairs]
  | cons cs rest ih =>
    intro a b
    rcases h : criteria.find? (fun c => c.id == cs.criterionId) with _ | c
    · simpa [List.foldl_cons, h, matchedPairs, List.filterMap_cons] using ih a b
    · simp only [List.foldl_cons, h]
      rw [ih]
      simp [matchedPairs, List.filterMap_cons, h]
      constructor <;> ring

/-- The same fold characterization for the (syntactically different,
arithmetically equal) fold in `computeAggregate`. -/
theorem aggregateFold_eq' (criteria : List RubricCriterion) :
    ∀ (scores : List CriterionScore) (a b : ℚ),
      scores.foldl (fun (acc : ℚ × ℚ) cs =>
        match criteria.find? (fun c => c.id == cs.criterionId) with
        | none => acc
        | some criterion =>
          let clampedScore := max 1 (min cs.maxScore.toQ cs.score)
          (acc.1 + clampedScore / cs.maxScore.toQ * 100 * criterion.weight,
           acc.2 + criterion.weight)) (a, b) =
      (a + ((matchedPairs scores criteria).map (fun p =>
          max 1 (min p.1.maxScore.toQ p.1.score) / p.1.maxScore.toQ * 100 * p.2.weight)).sum,
       b + ((matchedPairs scores criteria).map (fun p => p.2.weight)).sum) := by
  intro scores
  induction scores with
  | nil => intro a b; simp [matchedPairs]
  | cons cs rest ih =>
    intro a b
    rcases h : criteria.find? (fun c => c.id == cs.criterionId) with _ | c
    · simpa [List.foldl_cons, h, matchedPairs, List.filterMap_cons] using ih a b
    · simp only [List.foldl_cons, h]
      rw [ih]
      simp [matchedPairs, List.filterMap_cons, h]
      constructor <;> ring

/-- C1: `computeAggregateFromScores` is exactly the specified weighted
aggregation (matched criteria only in numerator and denominator, clamp,
one-decimal rounding); the `0.5/0.5`, `4/5` and `2/5` example gives
exactly `60`; and with no matching score the result is `0`. -/
theorem computeAggregateFromScores_meets_spec :
    (∀ scores rubric,
        computeAggregateFromScores scores rubric = specAggregate scores rubric) ∧
    computeAggregateFromScores fixtureScores fixtureRubric = 60 ∧
    (∀ scores rubric,
        (∀ cs ∈ scores, rubric.criteria.find? (fun c => c.id == cs.criterionId) = none) →
        computeAggregateFromScores scores rubric = 0) := by
  refine ⟨?_, ?_, ?_⟩
  · intro scores rubric
    unfold computeAggregateFromScores specAggregate
    rw [aggregateFold_eq]
    simp
  · with_unfolding_all decide
  · intro scores rubric h
    have hM : matchedPairs scores rubric.criteria = [] := by
      simp only [matchedPairs, List.filterMap_eq_nil_iff]
      intro cs hcs
      rw [h cs hcs]
      rfl
    unfold computeAggregateFromScores
    rw [aggregateFold_eq, hM]
    simp

/-- Witness for C1 at concrete inputs. -/
theorem computeAggregateFromScores_meets_spec_witness :
    computeAggregateFromScores fixtureScores fixtureRubric =
      specAggregate fixtureScores fixtureRubric ∧
    computeAggregateFromScores [⟨"zz", "zz", 4, ScoreRange.five, ""⟩] fixtureRubric = 0 :=
  ⟨computeAggregateFromScores_meets_spec.1 fixtureScores fixtureRubric,
   computeAggregateFromScores_meets_spec.2.2 [⟨"zz", "zz", 4, ScoreRange.five, ""⟩]
     fixtureRubric (by with_unfolding_all decide)⟩

/-- Every matched pair's criterion belongs to the criteria list. -/
theorem matchedPairs_snd_mem {scores : List CriterionScore}
    {criteria : List RubricCriterion} :
    ∀ p ∈ matchedPairs scores criteria, p.2 ∈ criteria := by
  intro p hp
  rcases List.mem_filterMap.mp hp with ⟨cs, _, hfind⟩
  rcases Option.map_eq_some.mp hfind with ⟨c, hc, hpc⟩
  rw [← hpc]
  exact List.mem_of_find?_eq_some hc

/-- Every element of a rational list is at most its `foldr max 0`. -/
theorem le_foldr_max (l : List ℚ) : ∀ x ∈ l, x ≤ l.foldr max 0 := by
  induction l with
  | nil => intro x hx; cases hx
  | cons a t ih =>
    intro x hx
    rcases List.mem_cons.mp hx with h | h
    · rw [h, List.foldr_cons]; exact le_max_left _ _
    · exact le_trans (ih x h) (by rw [List.foldr_cons]; exact le_max_right _ _)

/-- `foldr max 0` of a non-empty list of fives and tens is 5 or 10. -/
theorem foldr_max_five_ten (l : List ℚ) (h : ∀ x ∈ l, x = 5 ∨ x = 10) (hne : l ≠ []) :
    l.foldr max 0 = 5 ∨ l.foldr max 0 = 10 := by
  induction l with
  | nil => exact absurd rfl hne
  | cons a t ih =>
    rw [List.foldr_cons]
    rcases h a (List.mem_cons_self a t) with ha | ha <;> subst ha
    · match t with
      | [] => left; norm_num
      | b :: t' =>
        rcases ih (fun x hx => h x (List.mem_cons_of_mem _ hx)) (by simp) with ht | ht <;>
          rw [ht] <;> norm_num
    · match t with
      | [] => right; norm_num
      | b :: t' =>
        rcases ih (fun x hx => h x (List.mem_cons_of_mem _ hx)) (by simp) with ht | ht <;>
          rw [ht] <;> norm_num

/-- C10 (implicit): with strictly positive rubric weights, any matched
score forces the fallback aggregate to be at least `100` divided by the
largest matched `maxScore` (so at least 10), and the aggregate is `0`
exactly when no input score matches a rubric criterion — a `0` can
never come from low scores. -/
theorem computeAggregate_zero_iff_no_match :
    ∀ (scores : List CriterionScore) (rubric : Rubric),
      (∀ c ∈ rubric.criteria, 0 < c.weight) →
      ((matchedPairs scores rubric.criteria ≠ [] →
          100 / largestMatchedMaxScore scores rubric ≤
            computeAggregateFromScores scores rubric ∧
          10 ≤ computeAggregateFromScores scores rubric) ∧
       (computeAggregateFromScores scores rubric = 0 ↔
          matchedPairs scores rubric.criteria = [])) := by
  intro scores rubric hw
  by_cases hM : matchedPairs scores rubric.criteria = []
  · constructor
    · intro h; exact absurd hM h
    · have : computeAggregateFromScores scores rubric = 0 := by
        unfold computeAggregateFromScores
        rw [aggregateFold_eq, hM]
        simp
      exact ⟨fun _ => hM, fun _ => this⟩
  · set M := matchedPairs scores rubric.criteria with hMdef
    set num := (M.map (fun p =>
      max 1 (min p.1.maxScore.toQ p.1.score) / p.1.maxScore.toQ * 100 * p.2.weight)).sum with hnum
    set den := (M.map (fun p => p.2.weight)).sum with hden
    set mm := largestMatchedMaxScore scores rubric with hmmdef
    have hrw : computeAggregateFromScores scores rubric =
        if den = 0 then 0 else roundTo1 (clamp (num / den) 0 100) := by
      rw [hnum, hden, hMdef]
      unfold computeAggregateFromScores
      rw [aggregateFold_eq]
      simp
    have hwpos : ∀ p ∈ M, 0 < p.2.weight := fun p hp =>
      hw p.2 (matchedPairs_snd_mem p hp)
    have hdenpos : 0 < den := by
      rw [hden]
      refine List.sum_pos _ (fun w hwm => ?_) (by simpa using hM)
      rcases List.mem_map.mp hwm with ⟨p, hp, hpw⟩
      rw [← hpw]; exact hwpos p hp
    have hms_pos : ∀ p ∈ M, (0:ℚ) < p.1.maxScore.toQ := by
      intro p _; cases h : p.1.maxScore <;> norm_num [ScoreRange.toQ, ScoreRange.toNat]
    have h510 : ∀ x ∈ M.map (fun p => p.1.maxScore.toQ), x = 5 ∨ x = 10 := by
      intro x hx
      rcases List.mem_map.mp hx with ⟨p, _, hpx⟩
      rw [← hpx]
      cases p.1.maxScore <;> [left; right] <;> norm_num [ScoreRange.toQ, ScoreRange.toNat]
    have hmm510 : mm = 5 ∨ mm = 10 := by
      rw [hmmdef]
      exact foldr_max_five_ten _ h510 (by simpa using hM)
    have hmmpos : (0:ℚ) < mm := by rcases hmm510 with h | h <;> rw [h] <;> norm_num
    have hlemm : ∀ p ∈ M, p.1.maxScore.toQ ≤ mm := by
      intro p hp
      rw [hmmdef]
      exact le_foldr_max _ _ (List.mem_map.mpr ⟨p, hp, rfl⟩)
    have hterm_lo : ∀ p ∈ M, 100 / mm * p.2.weight ≤
        max 1 (min p.1.maxScore.toQ p.1.score) / p.1.maxScore.toQ * 100 * p.2.weight := by
      intro p hp
      have hms := hms_pos p hp
      have h1 : (1:ℚ) ≤ max 1 (min p.1.maxScore.toQ p.1.score) := le_max_left _ _
      have key : 100 / mm ≤ max 1 (min p.1.maxScore.toQ p.1.score) / p.1.maxScore.toQ * 100 := by
        rw [div_le_iff₀ hmmpos, div_mul_eq_mul_div, div_mul_eq_mul_div, le_div_iff₀ hms]
        nlinarith [hlemm p hp, mul_nonneg (by linarith :
          (0:ℚ) ≤ max 1 (min p.1.maxScore.toQ p.1.score) - 1) (le_of_lt hmmpos)]
      exact mul_le_mul_of_nonneg_right key (le_of_lt (hwpos p hp))
    have hterm_hi : ∀ p ∈ M,
        max 1 (min p.1.maxScore.toQ p.1.score) / p.1.maxScore.toQ * 100 * p.2.weight ≤
        100 * p.2.weight := by
      intro p hp
      have hms := hms_pos p hp
      have hm1 : (1:ℚ) ≤ p.1.maxScore.toQ := by
        cases p.1.maxScore <;> norm_num [ScoreRange.toQ, ScoreRange.toNat]
      have hcl : max 1 (min p.1.maxScore.toQ p.1.score) ≤ p.1.maxScore.toQ :=
        max_le hm1 (min_le_left _ _)
      have : max 1 (min p.1.maxScore.toQ p.1.score) / p.1.maxScore.toQ * 100 ≤ 100 := by
        rw [div_mul_eq_mul_div, div_le_iff₀ hms]
        nlinarith
      exact mul_le_mul_of_nonneg_right this (le_of_lt (hwpos p hp))
    have hsum_lo : 100 / mm * den ≤ num := by
      rw [hnum, hden, ← List.sum_map_mul_left]
      exact List.sum_le_sum hterm_lo
    have hsum_hi : num ≤ 100 * den := by
      rw [hnum, hden, ← List.sum_map_mul_left]
      exact List.sum_le_sum hterm_hi
    have hq_lo : 100 / mm ≤ num / den := (le_div_iff₀ hdenpos).mpr hsum_lo
    have hq_hi : num / den ≤ 100 := (div_le_iff₀ hdenpos).mpr hsum_hi
    have hq_nonneg : (0:ℚ) ≤ num / den :=
      le_trans (le_of_lt (div_pos (by norm_num) hmmpos)) hq_lo
    have hclamp : clamp (num / den) 0 100 = num / den := by
      unfold clamp
      rw [min_eq_right hq_hi, max_eq_right hq_nonneg]
    have hcompute : computeAggregateFromScores scores rubric = roundTo1 (num / den) := by
      rw [hrw, if_neg (ne_of_gt hdenpos), hclamp]
    have hround_lo : 100 / mm ≤ roundTo1 (num / den) := by
      rcases hmm510 with h5 | h10
      · rw [h5] at hq_lo ⊢
        have h20 : (20:ℚ) ≤ num / den := by linarith [hq_lo]
        unfold roundTo1 jsRound
        have hfl : (200:ℤ) ≤ ⌊num / den * 10 + 1/2⌋ :=
          Int.le_floor.mpr (by push_cast; linarith)
        have hflq : (200:ℚ) ≤ (⌊num / den * 10 + 1/2⌋ : ℤ) := by exact_mod_cast hfl
        rw [le_div_iff₀ (by norm_num : (0:ℚ) < 10)]
        linarith
      · rw [h10] at hq_lo ⊢
        have h10' : (10:ℚ) ≤ num / den := by linarith [hq_lo]
        unfold roundTo1 jsRound
        have hfl : (100:ℤ) ≤ ⌊num / den * 10 + 1/2⌋ :=
          Int.le_floor.mpr (by push_cast; linarith)
        have hflq : (100:ℚ) ≤ (⌊num / den * 10 + 1/2⌋ : ℤ) := by exact_mod_cast hfl
        rw [le_div_iff₀ (by norm_num : (0:ℚ) < 10)]
        linarith
    have h10le : 10 ≤ roundTo1 (num / den) := by
      rcases hmm510 with h | h <;> rw [h] at hround_lo <;> linarith
    constructor
    · intro _
      rw [hcompute]
      exact ⟨hround_lo, h10le⟩
    · constructor
      · intro h0
        rw [hcompute] at h0
        exfalso; linarith
      · intro h; exact absurd h hM

/-- Witness for C10 at the fixture scores and rubric. -/
theorem computeAggregate_zero_iff_no_match_witness :
    10 ≤ computeAggregateFromScores fixtureScores fixtureRubric ∧
    (computeAggregateFromScores [] fixtureRubric = 0 ↔
      matchedPairs [] fixtureRubric.criteria = []) :=
  ⟨((computeAggregate_zero_iff_no_match fixtureScores fixtureRubric
      (by with_unfolding_all decide)).1 (by with_unfolding_all decide)).2,
   (computeAggregate_zero_iff_no_match [] fixtureRubric
      (by with_unfolding_all decide)).2⟩

/-- Criteria with the same canonical form serialize identically. -/
theorem serializeCriterion_congr (c1 c2 : RubricCriterion)
    (h : canonCriterion c1 = canonCriterion c2) :
    serializeCriterion c1 = serializeCriterion c2 := by
  simp only [canonCriterion, Prod.mk.injEq] at h
  obtain ⟨h1, h2, h3, h4, h5⟩ := h
  unfold serializeCriterion
  rw [h1, h2, h3, h4, h5]

/-- Criteria lists with the same canonical forms serialize identically. -/
theorem serializeCriteria_congr :
    ∀ (l1 l2 : List RubricCriterion),
      l1.map canonCriterion = l2.map canonCriterion →
      l1.map serializeCriterion = l2.map serializeCriterion := by
  intro l1
  induction l1 with
  | nil =>
    intro l2 h
    cases l2 with
    | nil => rfl
    | cons b t => simp at h
  | cons a t ih =>
    intro l2 h
    cases l2 with
    | nil => simp at h
    | cons b t2 =>
      simp only [List.map_cons, List.cons.injEq] at h ⊢
      exact ⟨serializeCriterion_congr a b h.1, ih t2 h.2⟩

set_option maxRecDepth 12000 in
/-- C5 amended: the fingerprint is a function of the rubric's canonical
scoring form — the id, the trimmed name and description, and each
criterion's id, trimmed texts, weight rounded to 4 decimals and score
range.  In particular whitespace-only edits never change it (shown both
universally and at the padded fixture), while the checked weight /
scoreRange / criterion-id / name edits each do change it. -/
theorem rubricFingerprint_canonical_stability :
    (∀ r1 r2 : Rubric, r1.id = r2.id → jsTrim r1.name = jsTrim r2.name →
      jsTrim r1.description = jsTrim r2.description →
      r1.criteria.map canonCriterion = r2.criteria.map canonCriterion →
      rubricFingerprint r1 = rubricFingerprint r2) ∧
    rubricFingerprint fixtureRubric = rubricFingerprint fixtureRubricPadded ∧
    rubricFingerprint fixtureRubric ≠ rubricFingerprint fixtureRubricWeight4 ∧
    rubricFingerprint fixtureRubric ≠ rubricFingerprint fixtureRubricRange ∧
    rubricFingerprint fixtureRubric ≠ rubricFingerprint fixtureRubricId ∧
    rubricFingerprint fixtureRubric ≠ rubricFingerprint fixtureRubricRenamed := by
  refine ⟨?_, ?_, ?_, ?_, ?_, ?_⟩
  · intro r1 r2 h1 h2 h3 h4
    unfold rubricFingerprint serializeRubric
    rw [h1, h2, h3, serializeCriteria_congr _ _ h4]
  all_goals with_unfolding_all decide

set_option maxRecDepth 12000 in
/-- C5 counterexample: two rubrics that differ only in a criterion's
weight (`0.5` vs `0.50001`) have the same fingerprint, because weights
are rounded to 4 decimals before hashing — so the fingerprint does not
change whenever a weight changes. -/
theorem rubricFingerprint_weight_change_collision :
    fixtureRubric.criteria.map RubricCriterion.weight ≠
      fixtureRubricTinyWeight.criteria.map RubricCriterion.weight ∧
    fixtureRubric.id = fixtureRubricTinyWeight.id ∧
    fixtureRubric.name = fixtureRubricTinyWeight.name ∧
    fixtureRubric.description = fixtureRubricTinyWeight.description ∧
    fixtureRubric.criteria.map RubricCriterion.id =
      fixtureRubricTinyWeight.criteria.map RubricCriterion.id ∧
    fixtureRubric.criteria.map RubricCriterion.name =
      fixtureRubricTinyWeight.criteria.map RubricCriterion.name ∧
    fixtureRubric.criteria.map RubricCriterion.description =
      fixtureRubricTinyWeight.criteria.map RubricCriterion.description ∧
    fixtureRubric.criteria.map RubricCriterion.scoreRange =
      fixtureRubricTinyWeight.criteria.map RubricCriterion.scoreRange ∧
    rubricFingerprint fixtureRubric = rubricFingerprint fixtureRubricTinyWeight := by
  with_unfolding_all decide

/-- Witness for the amended C5 statement: trim-invariance applied at
the padded fixture. -/
theorem rubricFingerprint_canonical_stability_witness :
    rubricFingerprint fixtureRubricPadded = rubricFingerprint fixtureRubric :=
  rubricFingerprint_canonical_stability.1 fixtureRubricPadded fixtureRubric rfl
    (by with_unfolding_all decide) (by with_unfolding_all decide)
    (by with_unfolding_all decide)

/-- C9: when double-blind is requested, the rendered pairwise prompt is
identical whatever the two model labels are — the labels cannot leak
into the judge's view. -/
theorem buildPairwisePrompt_doubleBlind_label_free :
    ∀ (input : PairwiseEvalInput) (rubric : Rubric) (order : Order)
      (lA lB lA' lB' : Option String),
      input.doubleBlind = true →
      buildPairwisePrompt { input with modelLabelA := lA, modelLabelB := lB } rubric order =
      buildPairwisePrompt { input with modelLabelA := lA', modelLabelB := lB' } rubric order := by
  intro i r o lA lB lA' lB' h
  cases o <;> simp [buildPairwisePrompt, h]

/-- Witness for C9: two label assignments, same double-blind prompt. -/
theorem buildPairwisePrompt_doubleBlind_label_free_witness :
    buildPairwisePrompt
      ⟨"p", "ra", "rb", some "GPT", some "Claude", "r1", "m", true, false, none⟩
      fixtureRubric Order.AB =
    buildPairwisePrompt
      ⟨"p", "ra", "rb", none, some "Other", "r1", "m", true, false, none⟩
      fixtureRubric Order.AB :=
  buildPairwisePrompt_doubleBlind_label_free
    ⟨"p", "ra", "rb", none, none, "r1", "m", true, false, none⟩
    fixtureRubric Order.AB (some "GPT") (some "Claude") none (some "Other") rfl

/-- `isNonEmptyStr` decides `NonEmptyStrP`. -/
theorem isNonEmptyStr_iff (o : Option Json) : isNonEmptyStr o = true ↔ NonEmptyStrP o := by
  match o with
  | none => simp [isNonEmptyStr, NonEmptyStrP]
  | some Json.jnull => simp [isNonEmptyStr, NonEmptyStrP]
  | some (Json.jbool b) => simp [isNonEmptyStr, NonEmptyStrP]
  | some (Json.jnum q) => simp [isNonEmptyStr, NonEmptyStrP]
  | some (Json.jstr s) =>
    simp only [isNonEmptyStr, NonEmptyStrP, Bool.not_eq_true', Option.some.injEq]
    constructor
    · intro h
      refine ⟨s, rfl, fun hs => ?_⟩
      rw [hs] at h
      exact absurd h (by decide)
    · rintro ⟨s2, hs2, hne⟩
      injection hs2 with h2
      subst h2
      rw [Bool.eq_false_iff, ne_eq, String.isEmpty_iff]
      exact hne
  | some (Json.jarr xs) => simp [isNonEmptyStr, NonEmptyStrP]
  | some (Json.jobj fs) => simp [isNonEmptyStr, NonEmptyStrP]

/-- `validateCriterionJson` decides `ValidCriterionJson`. -/
theorem validateCriterionJson_iff (c : Json) :
    validateCriterionJson c = true ↔ ValidCriterionJson c := by
  match c with
  | Json.jnull => simp [validateCriterionJson, ValidCriterionJson]
  | Json.jbool b => simp [validateCriterionJson, ValidCriterionJson]
  | Json.jnum q => simp [validateCriterionJson, ValidCriterionJson]
  | Json.jstr s => simp [validateCriterionJson, ValidCriterionJson]
  | Json.jarr xs => simp [validateCriterionJson, ValidCriterionJson]
  | Json.jobj cf =>
    simp only [validateCriterionJson, Bool.and_eq_true, List.all_eq_true]
    constructor
    · rintro ⟨⟨⟨⟨⟨hkeys, hid⟩, hname⟩, hdesc⟩, hw⟩, hsr⟩
      refine ⟨cf, rfl, ?_, (isNonEmptyStr_iff _).mp hid,
        (isNonEmptyStr_iff _).mp hname, (isNonEmptyStr_iff _).mp hdesc, ?_, ?_⟩
      · intro kv hkv
        have := hkeys kv hkv
        simpa [List.elem_iff] using this
      · split at hw
        case _ q heq => exact ⟨q, heq, by simpa using hw⟩
        case _ => simp at hw
      · split at hsr
        case _ q heq =>
          refine ⟨q, heq, ?_⟩
          simpa using hsr
        case _ => simp at hsr
    · rintro ⟨cf', heq, hkeys, hid, hname, hdesc, ⟨q, hq, hq0, hq1⟩, ⟨q2, hq2, h510⟩⟩
      injection heq with h
      subst h
      refine ⟨⟨⟨⟨⟨?_, (isNonEmptyStr_iff _).mpr hid⟩, (isNonEmptyStr_iff _).mpr hname⟩,
        (isNonEmptyStr_iff _).mpr hdesc⟩, ?_⟩, ?_⟩
      · intro kv hkv
        simpa [List.elem_iff] using hkeys kv hkv
      · rw [hq]
        simp [hq0, hq1]
      · rw [hq2]
        rcases h510 with h | h <;> simp [h]

/-- C7 amended: the strict rubric schema accepts exactly the objects
with non-empty `id`/`name`/`createdAt` strings, a string description, a
boolean `isBuiltIn`, no unknown keys at either level, a non-empty
criteria array whose entries each have non-empty id/name/description,
a weight in `(0,1]` and a scoreRange of literally 5 or 10, and whose
weight sum lies within `[0.98, 1.02]` (validation is a pure
function). -/
theorem validateRubricJson_iff_valid (j : Json) :
    validateRubricJson j = true ↔ ValidRubricJson j := by
  match j with
  | Json.jnull => simp [validateRubricJson, ValidRubricJson]
  | Json.jbool b => simp [validateRubricJson, ValidRubricJson]
  | Json.jnum q => simp [validateRubricJson, ValidRubricJson]
  | Json.jstr s => simp [validateRubricJson, ValidRubricJson]
  | Json.jarr xs => simp [validateRubricJson, ValidRubricJson]
  | Json.jobj fs =>
    simp only [validateRubricJson, Bool.and_eq_true, List.all_eq_true]
    constructor
    · rintro ⟨⟨⟨⟨⟨⟨hkeys, hid⟩, hname⟩, hdesc⟩, hbool⟩, hcreated⟩, hcrit⟩
      split at hcrit
      case _ cs heq =>
        obtain ⟨⟨hne, hall⟩, hsum⟩ := by simpa [Bool.and_eq_true, List.all_eq_true] using hcrit
        refine ⟨fs, cs, rfl, ?_, (isNonEmptyStr_iff _).mp hid, (isNonEmptyStr_iff _).mp hname,
          ?_, ?_, (isNonEmptyStr_iff _).mp hcreated, heq, ?_, ?_, ?_, ?_⟩
        · intro kv hkv
          simpa [List.elem_iff] using hkeys kv hkv
        · revert hdesc
          match h : jsGet fs "description" with
          | some (Json.jstr s) => exact fun _ => ⟨s, rfl⟩
          | none => simp [isStr]
          | some Json.jnull => simp [isStr]
          | some (Json.jbool b) => simp [isStr]
          | some (Json.jnum q) => simp [isStr]
          | some (Json.jarr xs) => simp [isStr]
          | some (Json.jobj fs') => simp [isStr]
        · revert hbool
          match h : jsGet fs "isBuiltIn" with
          | some (Json.jbool b) => exact fun _ => ⟨b, rfl⟩
          | none => simp [isBool]
          | some Json.jnull => simp [isBool]
          | some (Json.jnum q) => simp [isBool]
          | some (Json.jstr s) => simp [isBool]
          | some (Json.jarr xs) => simp [isBool]
          | some (Json.jobj fs') => simp [isBool]
        · simpa using hne
        · intro c hc
          exact (validateCriterionJson_iff c).mp (hall c hc)
        · exact hsum.1
        · have := hsum.2
          linarith [this]
      case _ =>
        exact absurd hcrit (by simp)
    · rintro ⟨fs', cs, heq, hkeys, hid, hname, ⟨ds, hds⟩, ⟨bb, hbb⟩, hcreated, hcs, hne,
        hall, hpos, hwin⟩
      injection heq with h
      subst h
      refine ⟨⟨⟨⟨⟨⟨?_, (isNonEmptyStr_iff _).mpr hid⟩, (isNonEmptyStr_iff _).mpr hname⟩,
        ?_⟩, ?_⟩, (isNonEmptyStr_iff _).mpr hcreated⟩, ?_⟩
      · intro kv hkv
        simpa [List.elem_iff] using hkeys kv hkv
      · rw [hds]; rfl
      · rw [hbb]; rfl
      · rw [hcs]
        simp only [Bool.and_eq_true, List.all_eq_true]
        refine ⟨⟨by simpa using hne, fun c hc => (validateCriterionJson_iff c).mpr (hall c hc)⟩,
          ?_⟩
        simp only [decide_eq_true_eq, Bool.and_eq_true]
        exact ⟨hpos, by linarith [hwin]⟩

/-- C7 counterexample: a rubric object meeting every condition the
claim lists (non-empty criteria, weights in `(0,1]`, weight sum 1,
strict keys) is still rejected, because its `id` is the empty string —
the claimed "if and only if" omits the non-empty-string (and
scoreRange) shape conditions. -/
theorem validateRubric_rejects_claimed_ok_input :
    claimedRubricOk fixtureRubricJsonEmptyId = true ∧
    validateRubricJson fixtureRubricJsonEmptyId = false := by
  constructor <;> with_unfolding_all decide

/-- Witness for the amended C7 statement: the good fixture is accepted,
so it satisfies the amended acceptance conditions. -/
theorem validateRubricJson_iff_valid_witness : ValidRubricJson fixtureRubricJsonGood :=
  (validateRubricJson_iff_valid fixtureRubricJsonGood).mp (by with_unfolding_all decide)

/-- Counting each verdict label partitions a list's length. -/
theorem verdict_count_split (l : List Verdict) :
    l.count Verdict.A + l.count Verdict.B + l.count Verdict.tie = l.length := by
  induction l with
  | nil => rfl
  | cons a t ih => cases a <;> simp [List.count_cons, beq_iff_eq, ← ih] <;> omega

/-- On zipped lists of equal length, counting by first component equals
counting in the first list. -/
theorem zip_countP_fst (k : Verdict) :
    ∀ (h j : List Verdict), h.length = j.length →
      (h.zip j).countP (fun p => p.1 == k) = h.count k := by
  intro h
  induction h with
  | nil => intro j _; simp
  | cons a t ih =>
    intro j hl
    cases j with
    | nil => simp at hl
    | cons b u =>
      simp only [List.zip_cons_cons, List.countP_cons, List.count_cons]
      rw [ih u (by simpa using hl)]

/-- On zipped lists of equal length, counting by second component equals
counting in the second list. -/
theorem zip_countP_snd (k : Verdict) :
    ∀ (h j : List Verdict), h.length = j.length →
      (h.zip j).countP (fun p => p.2 == k) = j.count k := by
  intro h
  induction h with
  | nil =>
    intro j hl
    cases j with
    | nil => simp
    | cons b u => simp at hl
  | cons a t ih =>
    intro j hl
    cases j with
    | nil => simp at hl
    | cons b u =>
      simp only [List.zip_cons_cons, List.countP_cons, List.count_cons]
      rw [ih u (by simpa using hl)]

/-- Inclusion–exclusion on one label: both-sides-`k` pairs are at least
`(count k on the left) + (count k on the right) - length`. -/
theorem pair_count_bound (k : Verdict) :
    ∀ (l : List (Verdict × Verdict)),
      l.countP (fun p => p.1 == k) + l.countP (fun p => p.2 == k) ≤
      l.length + l.countP (fun p => p.1 == k && p.2 == k) := by
  intro l
  induction l with
  | nil => simp
  | cons a t ih =>
    simp only [List.countP_cons, List.length_cons]
    by_cases h1 : (a.1 == k) = true <;> by_cases h2 : (a.2 == k) = true <;>
      simp [h1, h2] <;> omega

/-- Agreeing pairs split by their common label. -/
theorem pair_diag_split :
    ∀ (l : List (Verdict × Verdict)),
      l.countP (fun p => p.1 == p.2) =
        l.countP (fun p => p.1 == Verdict.A && p.2 == Verdict.A) +
        l.countP (fun p => p.1 == Verdict.B && p.2 == Verdict.B) +
        l.countP (fun p => p.1 == Verdict.tie && p.2 == Verdict.tie) := by
  intro l
  induction l with
  | nil => rfl
  | cons a t ih =>
    obtain ⟨x, y⟩ := a
    simp only [List.countP_cons]
    cases x <;> cases y <;> simp <;> omega

/-- The marginal-frequency inequality behind the kappa lower bound: for
nonnegative rows and columns with common total `n` and per-label
overlaps `oᵢ ≥ xᵢ + yᵢ - n`, the chance-agreement numerator satisfies
`2·Σ xᵢyᵢ ≤ n² + (Σ oᵢ)·n`. -/
theorem kappa_core (x1 x2 x3 y1 y2 y3 o1 o2 o3 n : ℚ)
    (hx1 : 0 ≤ x1) (hx2 : 0 ≤ x2) (hx3 : 0 ≤ x3)
    (hy1 : 0 ≤ y1) (hy2 : 0 ≤ y2) (hy3 : 0 ≤ y3)
    (ho1 : 0 ≤ o1) (ho2 : 0 ≤ o2) (ho3 : 0 ≤ o3)
    (hsx : x1 + x2 + x3 = n) (hsy : y1 + y2 + y3 = n)
    (h1 : x1 + y1 ≤ n + o1) (h2 : x2 + y2 ≤ n + o2) (h3 : x3 + y3 ≤ n + o3) :
    2 * (x1 * y1 + x2 * y2 + x3 * y3) ≤ n * n + (o1 + o2 + o3) * n := by
  have hn : 0 ≤ n := by linarith
  have Hx : n * x1 + n * x2 + n * x3 = n * n := by linear_combination n * hsx
  have Hy : n * y1 + n * y2 + n * y3 = n * n := by linear_combination n * hsy
  have ho1n : 0 ≤ o1 * n := mul_nonneg ho1 hn
  have ho2n : 0 ≤ o2 * n := mul_nonneg ho2 hn
  have ho3n : 0 ≤ o3 * n := mul_nonneg ho3 hn
  rw [show n * n + (o1 + o2 + o3) * n = n * n + (o1 * n + o2 * n + o3 * n) from by ring]
  rcases le_or_lt (x1 + y1) n with hA | hA
  · rcases le_or_lt (x2 + y2) n with hB | hB
    · rcases le_or_lt (x3 + y3) n with hC | hC
      · have A1 : 4 * (x1 * y1) ≤ n * x1 + n * y1 := by
          linarith [sq_nonneg (x1 - y1),
            mul_le_mul_of_nonneg_right hA (add_nonneg hx1 hy1)]
        have A2 : 4 * (x2 * y2) ≤ n * x2 + n * y2 := by
          linarith [sq_nonneg (x2 - y2),
            mul_le_mul_of_nonneg_right hB (add_nonneg hx2 hy2)]
        have A3 : 4 * (x3 * y3) ≤ n * x3 + n * y3 := by
          linarith [sq_nonneg (x3 - y3),
            mul_le_mul_of_nonneg_right hC (add_nonneg hx3 hy3)]
        linarith
      · have A1 : 4 * (x1 * y1) ≤ n * x1 + n * y1 := by
          linarith [sq_nonneg (x1 - y1),
            mul_le_mul_of_nonneg_right hA (add_nonneg hx1 hy1)]
        have A2 : 4 * (x2 * y2) ≤ n * x2 + n * y2 := by
          linarith [sq_nonneg (x2 - y2),
            mul_le_mul_of_nonneg_right hB (add_nonneg hx2 hy2)]
        have Q : (0:ℚ) ≤ (2 * n - (x3 + y3)) * ((x3 + y3) - n) :=
          mul_nonneg (by linarith) (by linarith)
        have A3 : 4 * (x3 * y3) ≤ 3 * (n * x3) + 3 * (n * y3) - 2 * (n * n) := by
          linarith [sq_nonneg (x3 - y3), Q]
        have O3 : n * x3 + n * y3 - n * n ≤ o3 * n := by
          linarith [mul_le_mul_of_nonneg_right (by linarith : x3 + y3 - n ≤ o3) hn]
        linarith
    · rcases le_or_lt (x3 + y3) n with hC | hC
      · have A1 : 4 * (x1 * y1) ≤ n * x1 + n * y1 := by
          linarith [sq_nonneg (x1 - y1),
            mul_le_mul_of_nonneg_right hA (add_nonneg hx1 hy1)]
        have A3 : 4 * (x3 * y3) ≤ n * x3 + n * y3 := by
          linarith [sq_nonneg (x3 - y3),
            mul_le_mul_of_nonneg_right hC (add_nonneg hx3 hy3)]
        have Q : (0:ℚ) ≤ (2 * n - (x2 + y2)) * ((x2 + y2) - n) :=
          mul_nonneg (by linarith) (by linarith)
        have A2 : 4 * (x2 * y2) ≤ 3 * (n * x2) + 3 * (n * y2) - 2 * (n * n) := by
          linarith [sq_nonneg (x2 - y2), Q]
        have O2 : n * x2 + n * y2 - n * n ≤ o2 * n := by
          linarith [mul_le_mul_of_nonneg_right (by linarith : x2 + y2 - n ≤ o2) hn]
        linarith
      · exfalso; linarith
  · rcases le_or_lt (x2 + y2) n with hB | hB
    · rcases le_or_lt (x3 + y3) n with hC | hC
      · have A2 : 4 * (x2 * y2) ≤ n * x2 + n * y2 := by
          linarith [sq_nonneg (x2 - y2),
            mul_le_mul_of_nonneg_right hB (add_nonneg hx2 hy2)]
        have A3 : 4 * (x3 * y3) ≤ n * x3 + n * y3 := by
          linarith [sq_nonneg (x3 - y3),
            mul_le_mul_of_nonneg_right hC (add_nonneg hx3 hy3)]
        have Q : (0:ℚ) ≤ (2 * n - (x1 + y1)) * ((x1 + y1) - n) :=
          mul_nonneg (by linarith) (by linarith)
        have A1 : 4 * (x1 * y1) ≤ 3 * (n * x1) + 3 * (n * y1) - 2 * (n * n) := by
          linarith [sq_nonneg (x1 - y1), Q]
        have O1 : n * x1 + n * y1 - n * n ≤ o1 * n := by
          linarith [mul_le_mul_of_nonneg_right (by linarith : x1 + y1 - n ≤ o1) hn]
        linarith
      · exfalso; linarith
    · exfalso; linarith
/-- C8: the computed Cohen's kappa always lies in `[-1, 1]`; it is `0`
for empty or length-mismatched inputs, and `0` whenever the computed
chance agreement `pe` reaches the `0.999999` guard. -/
theorem cohenKappa_bounded :
    ∀ (human judge : List Verdict),
      (-1 ≤ cohenKappa human judge ∧ cohenKappa human judge ≤ 1) ∧
      (human = [] ∨ judge = [] ∨ human.length ≠ judge.length →
        cohenKappa human judge = 0) ∧
      (999999/1000000 ≤ peOf human judge → cohenKappa human judge = 0) := by
  intro h j
  by_cases hdeg : h.length = 0 ∨ j.length = 0 ∨ h.length ≠ j.length
  · rw [cohenKappa, if_pos hdeg]
    refine ⟨by norm_num, fun _ => rfl, fun _ => rfl⟩
  · push_neg at hdeg
    obtain ⟨hne1, hne2, hlen⟩ := hdeg
    by_cases hpe : 999999/1000000 ≤ peOf h j
    · rw [cohenKappa, if_neg (by push_neg; exact ⟨hne1, hne2, hlen⟩)]
      simp only []
      rw [if_pos hpe]
      refine ⟨by norm_num, fun hd => ?_, fun _ => rfl⟩
      · rcases hd with hd | hd | hd
        · exact absurd (by simp [hd]) hne1
        · exact absurd (by simp [hd]) hne2
        · exact absurd hd (by simpa using hlen)
    · rw [cohenKappa, if_neg (by push_neg; exact ⟨hne1, hne2, hlen⟩)]
      simp only []
      rw [if_neg hpe]
      have hnpos : 0 < h.length := Nat.pos_of_ne_zero hne1
      have hnQ : (0:ℚ) < (h.length : ℚ) := by exact_mod_cast hnpos
      have hnQ0 : ((h.length : ℚ)) ≠ 0 := ne_of_gt hnQ
      set L := h.zip j with hL
      have hLlen : L.length = h.length := by
        rw [hL, List.length_zip, ← hlen, min_self]
      set a1 := h.count Verdict.A with ha1
      set a2 := h.count Verdict.B with ha2
      set a3 := h.count Verdict.tie with ha3
      set b1 := j.count Verdict.A with hb1
      set b2 := j.count Verdict.B with hb2
      set b3 := j.count Verdict.tie with hb3
      set o1 := L.countP (fun p => p.1 == Verdict.A && p.2 == Verdict.A) with ho1
      set o2 := L.countP (fun p => p.1 == Verdict.B && p.2 == Verdict.B) with ho2
      set o3 := L.countP (fun p => p.1 == Verdict.tie && p.2 == Verdict.tie) with ho3
      set O := L.countP (fun p => p.1 == p.2) with hO
      have hOsplit : O = o1 + o2 + o3 := by
        rw [hO, ho1, ho2, ho3]; exact pair_diag_split L
      have hOlen : O ≤ h.length := le_trans (List.countP_le_length _) (le_of_eq hLlen)
      have hcount1 : a1 + b1 ≤ h.length + o1 := by
        have hb := pair_count_bound Verdict.A L
        rw [hL, zip_countP_fst Verdict.A h j hlen, zip_countP_snd Verdict.A h j hlen] at hb
        rw [ha1, hb1, ho1]
        calc h.count Verdict.A + j.count Verdict.A ≤
            L.length + L.countP (fun p => p.1 == Verdict.A && p.2 == Verdict.A) := by
              simpa [hL] using hb
          _ = h.length + L.countP (fun p => p.1 == Verdict.A && p.2 == Verdict.A) := by
              rw [hLlen]
      have hcount2 : a2 + b2 ≤ h.length + o2 := by
        have hb := pair_count_bound Verdict.B L
        rw [hL, zip_countP_fst Verdict.B h j hlen, zip_countP_snd Verdict.B h j hlen] at hb
        rw [ha2, hb2, ho2]
        calc h.count Verdict.B + j.count Verdict.B ≤
            L.length + L.countP (fun p => p.1 == Verdict.B && p.2 == Verdict.B) := by
              simpa [hL] using hb
          _ = h.length + L.countP (fun p => p.1 == Verdict.B && p.2 == Verdict.B) := by
              rw [hLlen]
      have hcount3 : a3 + b3 ≤ h.length + o3 := by
        have hb := pair_count_bound Verdict.tie L
        rw [hL, zip_countP_fst Verdict.tie h j hlen, zip_countP_snd Verdict.tie h j hlen] at hb
        rw [ha3, hb3, ho3]
        calc h.count Verdict.tie + j.count Verdict.tie ≤
            L.length + L.countP (fun p => p.1 == Verdict.tie && p.2 == Verdict.tie) := by
              simpa [hL] using hb
          _ = h.length + L.countP (fun p => p.1 == Verdict.tie && p.2 == Verdict.tie) := by
              rw [hLlen]
      have hsx : a1 + a2 + a3 = h.length := by
        rw [ha1, ha2, ha3]; exact verdict_count_split h
      have hsy : b1 + b2 + b3 = h.length := by
        rw [hb1, hb2, hb3, hlen]; exact verdict_count_split j
      have core := kappa_core (a1 : ℚ) (a2 : ℚ) (a3 : ℚ) (b1 : ℚ) (b2 : ℚ) (b3 : ℚ)
        (o1 : ℚ) (o2 : ℚ) (o3 : ℚ) (h.length : ℚ)
        (by positivity) (by positivity) (by positivity)
        (by positivity) (by positivity) (by positivity)
        (by positivity) (by positivity) (by positivity)
        (by exact_mod_cast hsx) (by exact_mod_cast hsy)
        (by exact_mod_cast hcount1) (by exact_mod_cast hcount2) (by exact_mod_cast hcount3)
      have hpeq : peOf h j =
          ((a1 : ℚ) * b1 + a2 * b2 + a3 * b3) / ((h.length : ℚ) * (h.length : ℚ)) := by
        simp only [peOf, verdictLabels, List.map_cons, List.map_nil, List.sum_cons,
          List.sum_nil, hlen]
        rw [ha1, ha2, ha3, hb1, hb2, hb3]
        field_simp
        ring
      have key : 2 * peOf h j ≤ 1 + (O : ℚ) / (h.length : ℚ) := by
        rw [hpeq]
        have hnn : (0:ℚ) < (h.length : ℚ) * (h.length : ℚ) := by positivity
        have hOQ : ((o1 : ℚ) + o2 + o3) = (O : ℚ) := by exact_mod_cast hOsplit.symm
        have expand : 1 + (O : ℚ) / (h.length : ℚ) =
            ((h.length : ℚ) * (h.length : ℚ) + (O : ℚ) * (h.length : ℚ)) /
              ((h.length : ℚ) * (h.length : ℚ)) := by
          field_simp
          ring
        have step : 2 * (((a1 : ℚ) * b1 + a2 * b2 + a3 * b3) /
            ((h.length : ℚ) * (h.length : ℚ))) =
            (2 * ((a1 : ℚ) * b1 + a2 * b2 + a3 * b3)) /
              ((h.length : ℚ) * (h.length : ℚ)) := by ring
        rw [step, expand]
        gcongr
        have hOn : ((o1 : ℚ) + o2 + o3) * (h.length : ℚ) = (O : ℚ) * (h.length : ℚ) := by
          rw [hOQ]
        linarith [core]
      have hOdiv : (O : ℚ) / (h.length : ℚ) ≤ 1 := by
        rw [div_le_one hnQ]
        exact_mod_cast hOlen
      have hpelt : peOf h j < 1 := by
        have : peOf h j < 999999/1000000 := lt_of_not_le hpe
        linarith
      have h1mp : 0 < 1 - peOf h j := by linarith
      refine ⟨⟨?_, ?_⟩, fun hd => ?_, fun hpe2 => absurd hpe2 hpe⟩
      · rw [le_div_iff₀ h1mp]
        linarith [key]
      · rw [div_le_one h1mp]
        linarith [hOdiv]
      · rcases hd with hd | hd | hd
        · exact absurd (by simp [hd]) hne1
        · exact absurd (by simp [hd]) hne2
        · exact absurd hd (by simpa using hlen)

/-- Witness for C8 at concrete verdict lists (empty input, a
degenerate-`pe` input, and a non-degenerate pair). -/
theorem cohenKappa_bounded_witness :
    cohenKappa [] [Verdict.A] = 0 ∧
    cohenKappa [Verdict.A] [Verdict.A] = 0 ∧
    (-1 ≤ cohenKappa [Verdict.A, Verdict.B] [Verdict.B, Verdict.A] ∧
      cohenKappa [Verdict.A, Verdict.B] [Verdict.B, Verdict.A] ≤ 1) :=
  ⟨(cohenKappa_bounded [] [Verdict.A]).2.1 (Or.inl rfl),
   (cohenKappa_bounded [Verdict.A] [Verdict.A]).2.2 (by with_unfolding_all decide),
   (cohenKappa_bounded [Verdict.A, Verdict.B] [Verdict.B, Verdict.A]).1⟩

/-- Witness for the amended C6 statement at concrete runs. -/
theorem storeExperimentRun_replaces_by_id_witness :
    fixtureRunOld ∈ storeExperimentRun fixtureRunNew [fixtureRunOld] ∧
    ((storeExperimentRun fixtureRunNew [fixtureRunOld]).map ExperimentRun.id).Nodup :=
  ⟨(storeExperimentRun_replaces_by_id fixtureRunNew [fixtureRunOld]).2.2 fixtureRunOld
     (by with_unfolding_all decide) (by with_unfolding_all decide),
   (storeExperimentRun_replaces_by_id fixtureRunNew [fixtureRunOld]).2.1
     (by with_unfolding_all decide)⟩

end RapidJudge
